import Mathlib

/-!
Shallow embedding of `src/backend/forecast_utils.py` (Azure demand forecasting,
recursive multi-step feature-forecasting engine) and proofs about it.

Modelling conventions:
* A pandas `Series` row is an association list `Row α := List (String × α)`;
  assignment (`last["k"] = v`) replaces the first occurrence of the key or
  appends a fresh entry, exactly like `Series.__setitem__`.
* A `DataFrame` is a list of rows (chronological order).  Column extraction
  (`history[col]`) fails with a key error when some row lacks the column.
* Numeric cells live in an arbitrary field `α` (floats-as-exact-numbers
  abstraction); the two operations that are not field operations —
  `numpy.sqrt` (inside `pandas.Series.std`) and float `%` (in the calendar
  update `month % 12`) — are supplied by an `Ops α` record.  Instantiations:
  `ℚ` with any placeholder operations for executable witnesses, and `ℝ` with
  `Real.sqrt` where square roots matter.
* `pandas.Series.std` uses `ddof = 1` (sample standard deviation); this is
  modelled faithfully (`pandasStd`).  The population standard deviation
  (`populationStd`) is defined separately for comparison with the spec.
* Python exceptions (KeyError on a missing row key / column, indexing the last
  element of an empty frame) are modelled with `Except Err`.
* `model.predict` receives the reindexed row: a list of `Option α` in the
  order of `model.feature_names_in_`, with `none` standing for the `NaN`
  that `Series.reindex` inserts for a label that is absent from the row.
* The two Python functions `recursive_forecast_cpu` and
  `recursive_forecast_storage` have identical bodies except for which raw
  metric the prediction overwrites in the appended record ("usage_cpu"
  vs. "usage_storage"); they are modelled as one parameterised loop applied
  to the two target column names.
* Corner not exercised by any claim: pandas produces `NaN` for the mean/std
  of an empty window and for the `ddof = 1` std of a singleton window; the
  embedding's total field operations give `x / 0 = 0` there instead.  All
  claims below are stated away from those corners (buffers are nonempty,
  and windows of interest have at least two elements).
-/

namespace AzureForecast

/-- The two non-field numeric primitives used by the Python code. -/
structure Ops (α : Type) where
  sqrt : α → α
  mod12 : α → α

abbrev Row (α : Type) := List (String × α)
abbrev Frame (α : Type) := List (Row α)

/-- Errors the Python code can raise: `KeyError` (missing row key or frame
column) and indexing into an empty frame (`history.iloc[-1]`). -/
inductive Err where
  | keyError : String → Err
  | emptyFrame : Err
deriving DecidableEq, Repr

instance {ε β : Type} [DecidableEq ε] [DecidableEq β] : DecidableEq (Except ε β)
  | Except.ok a, Except.ok b =>
    if h : a = b then isTrue (congrArg Except.ok h)
    else isFalse (fun hh => h (Except.ok.inj hh))
  | Except.ok _, Except.error _ => isFalse (fun hh => Except.noConfusion hh)
  | Except.error _, Except.ok _ => isFalse (fun hh => Except.noConfusion hh)
  | Except.error a, Except.error b =>
    if h : a = b then isTrue (congrArg Except.error h)
    else isFalse (fun hh => h (Except.error.inj hh))

variable {α : Type} [Field α] [DecidableEq α]

/-- `row["k"]`, as an option (first occurrence of the key). -/
def rget : Row α → String → Option α
  | [], _ => none
  | (k', v) :: r, k => if k' = k then some v else rget r k

/-- `"k" in row`. -/
def rmem (r : Row α) (k : String) : Bool := (rget r k).isSome

/-- `row["k"] = v`: replace the first occurrence or append. -/
def rset : Row α → String → α → Row α
  | [], k, v => [(k, v)]
  | (k', v') :: r, k, v => if k' = k then (k, v) :: r else (k', v') :: rset r k v

/-- `row.get("k", d)`. -/
def gget (r : Row α) (k : String) (d : α) : α := (rget r k).getD d

/-- `row["k"]` where Python would raise `KeyError` on a missing key. -/
def need (r : Row α) (k : String) : Except Err α :=
  match rget r k with
  | some v => Except.ok v
  | none => Except.error (Err.keyError k)

/-- `frame[col]`: the column as a list, `KeyError` if some row lacks it. -/
def colVals : Frame α → String → Except Err (List α)
  | [], _ => Except.ok []
  | r :: h, c =>
    match rget r c with
    | some v => (colVals h c).map (fun l => v :: l)
    | none => Except.error (Err.keyError c)

/-- `series.tail(n)` / `df.tail(n)`: the last `n` elements (all of them when
there are fewer than `n`). -/
def tailN (n : Nat) (l : List β) : List β := l.drop (l.length - n)

/-- `series.iloc[-k]` (for `k ≥ 1`): `k`-th element from the end, out of
range yields `none`. -/
def ilocNeg (l : List α) (k : Nat) : Option α :=
  if 1 ≤ k ∧ k ≤ l.length then l[l.length - k]? else none

/-- `frame[col].iloc[-k]`, with Python's error behaviour. -/
def colIloc (h : Frame α) (col : String) (k : Nat) : Except Err α := do
  let cs ← colVals h col
  match ilocNeg cs k with
  | some v => Except.ok v
  | none => Except.error (Err.keyError col)

/-- `series.mean()`. -/
def listMean (l : List α) : α := l.sum / (l.length : α)

/-- The `ddof = 1` variance under pandas' default `series.std()`. -/
def sampleVar (l : List α) : α :=
  (l.map (fun x => (x - listMean l) ^ 2)).sum / ((l.length : α) - 1)

/-- The population (`ddof = 0`) variance. -/
def popVar (l : List α) : α :=
  (l.map (fun x => (x - listMean l) ^ 2)).sum / (l.length : α)

/-- `series.std()` as pandas computes it: square root of the `ddof = 1`
(sample) variance. -/
def pandasStd (ops : Ops α) (l : List α) : α := ops.sqrt (sampleVar l)

/-- The population standard deviation — what the spec asserts the rolling-std
features hold.  Defined from the spec's words for comparison; the source
computes `pandasStd`. -/
def populationStd (ops : Ops α) (l : List α) : α := ops.sqrt (popVar l)

/-- `epsilon = 1e-6` from the source. -/
def epsilon : α := 1 / 1000000

/-- `last[key] = v` only when `key in last` (the conditional-write pattern of
the rolling-feature updates). -/
def rsetIf (r : Row α) (k : String) (v : α) : Row α :=
  if rmem r k then rset r k v else r

/-- The source's per-feature update pattern
`if key in last: last[key] = <expr>` (where evaluating `<expr>` may itself
raise a KeyError). -/
def guardedWrite (r : Row α) (key : String) (comp : Except Err α) :
    Except Err (Row α) :=
  if rmem r key then do
    let v ← comp
    pure (rset r key v)
  else pure r

/-! ### Stage 1: calendar advance -/

/-- The year rollover (`forecast_utils.py` lines 53-56): note the source reads
`last["month"]` without guarding its presence. -/
def yearUpd (r : Row α) : Except Err (Row α) :=
  if rmem r "year" then do
    let mo ← need r "month"
    if mo = 1 then do
      let y ← need r "year"
      pure (rset r "year" (y + 1))
    else pure r
  else pure r

/-- Stage 1 of the step reconstructor (`forecast_utils.py` lines 50-60):
month rollover, conditional year increment, weekend toggle. -/
def calendarAdvance (ops : Ops α) (r0 : Row α) : Except Err (Row α) := do
  let r ← guardedWrite r0 "month" ((need r0 "month").map (fun mo => ops.mod12 mo + 1))
  let r ← yearUpd r
  guardedWrite r "is_weekend" ((need r "is_weekend").map (fun w => 1 - w))

/-! ### Stage 2: lag features -/

/-- One guarded lag update: `if key in last: last[key] = history[col].iloc[-off]`. -/
def lagUpd (h : Frame α) (key col : String) (off : Nat) (r : Row α) :
    Except Err (Row α) :=
  guardedWrite r key (colIloc h col off)

/-- The `if len(history) >= 3` block of stage 2. -/
def lag3Upd (h : Frame α) (r : Row α) : Except Err (Row α) :=
  if 3 ≤ h.length then do
    let r ← lagUpd h "usage_cpu_lag_3" "usage_cpu" 3 r
    let r ← lagUpd h "usage_storage_lag_3" "usage_storage" 3 r
    lagUpd h "users_active_lag_3" "users_active" 3 r
  else pure r

/-- The `if len(history) >= 7` block of stage 2. -/
def lag7Upd (h : Frame α) (r : Row α) : Except Err (Row α) :=
  if 7 ≤ h.length then do
    let r ← lagUpd h "usage_cpu_lag_7" "usage_cpu" 7 r
    let r ← lagUpd h "usage_storage_lag_7" "usage_storage" 7 r
    lagUpd h "users_active_lag_7" "users_active" 7 r
  else pure r

/-- Stage 2 (`forecast_utils.py` lines 66-91): lag-1 always, lag-3 / lag-7
behind `len(history) >= 3` / `>= 7` guards. -/
def lagStage (h : Frame α) (r0 : Row α) : Except Err (Row α) := do
  let r ← lagUpd h "usage_cpu_lag_1" "usage_cpu" 1 r0
  let r ← lagUpd h "usage_storage_lag_1" "usage_storage" 1 r
  let r ← lagUpd h "users_active_lag_1" "users_active" 1 r
  let r ← lag3Upd h r
  lag7Upd h r

/-! ### Stage 3: rolling statistics -/

/-- Rolling update for one raw metric (`forecast_utils.py` lines 96-109):
the column is extracted unconditionally (KeyError when absent), each of the
four statistics is written only when its feature is present on the row. -/
def rollColUpd (ops : Ops α) (h : Frame α) (col : String) (r0 : Row α) :
    Except Err (Row α) := do
  let cs ← colVals h col
  let last3 := tailN 3 cs
  let r := rsetIf r0 (col ++ "_rolling_mean_3") (listMean last3)
  let r := rsetIf r (col ++ "_rolling_std_3") (pandasStd ops last3)
  let last7 := tailN 7 cs
  let r := rsetIf r (col ++ "_rolling_mean_7") (listMean last7)
  pure (rsetIf r (col ++ "_rolling_std_7") (pandasStd ops last7))

/-- Stage 3: the `for col in ["usage_cpu", "usage_storage", "users_active"]`
loop. -/
def rollStage (ops : Ops α) (h : Frame α) (r0 : Row α) : Except Err (Row α) := do
  let r ← rollColUpd ops h "usage_cpu" r0
  let r ← rollColUpd ops h "usage_storage" r
  rollColUpd ops h "users_active" r

/-! ### Stage 4: derived features -/

/-- One guarded ratio update:
`if key in last: last[key] = last[num] / (last[den] + epsilon)`. -/
def ratioUpd (key num den : String) (r : Row α) : Except Err (Row α) :=
  guardedWrite r key (do
    let a ← need r num
    let b ← need r den
    pure (a / (b + epsilon)))

/-- Stage 4 (`forecast_utils.py` lines 115-142): the seven derived features,
in source order. -/
def derivedStage (r0 : Row α) : Except Err (Row α) := do
  let r ← ratioUpd "cpu_per_user" "usage_cpu_lag_1" "users_active_lag_1" r0
  let r ← ratioUpd "storage_per_user" "usage_storage_lag_1" "users_active_lag_1" r
  let r ← ratioUpd "cpu_storage_ratio" "usage_cpu_lag_1" "usage_storage_lag_1" r
  let r ← ratioUpd "econ_demand_ratio" "economic_index" "cloud_market_demand" r
  let r ← guardedWrite r "system_stress" (do
    let a ← need r "usage_cpu_lag_1"
    let b ← need r "usage_storage_lag_1"
    let c ← need r "users_active_lag_1"
    pure (a + b + c))
  let r ← guardedWrite r "cpu_utilization_ratio"
    ((need r "usage_cpu_lag_1").map (fun a => a / 100))
  ratioUpd "storage_efficiency" "usage_storage_lag_1" "users_active_lag_1" r

/-! ### Predictor, step, loop -/

/-- The trained model: its declared ordered feature list
(`model.feature_names_in_`) and its prediction function.  `predict` receives
the reindexed row (`none` = the NaN that `reindex` fills in for a label the
row does not carry). -/
structure Model (α : Type) where
  feature_names_in_ : List String
  predict : List (Option α) → α

/-- `last.reindex(feature_cols)`: select exactly the declared features, in
order, `none` for an absent label. -/
def reindex (r : Row α) (cols : List String) : List (Option α) :=
  cols.map (rget r)

/-- Stages 1-4 applied to the template (the copy of the buffer's last row). -/
def reconstruct (ops : Ops α) (h : Frame α) : Except Err (Row α) := do
  let some last0 := h.getLast? | Except.error Err.emptyFrame
  let t ← calendarAdvance ops last0
  let t ← lagStage h t
  let t ← rollStage ops h t
  derivedStage t

/-- One iteration of the recursive loop: reconstruct, predict, overwrite the
target metric with the prediction, append.  Returns the prediction and the
grown buffer. -/
def forecastStep (ops : Ops α) (m : Model α) (tgt : String) (h : Frame α) :
    Except Err (α × Frame α) := do
  let t ← reconstruct ops h
  let pred := m.predict (reindex t m.feature_names_in_)
  pure (pred, h ++ [rset t tgt pred])

/-- The `for day in range(n_days)` loop, returning the prediction list and
the final buffer. -/
def forecastLoop (ops : Ops α) (m : Model α) (tgt : String) :
    Nat → Frame α → Except Err (List α × Frame α)
  | 0, h => Except.ok ([], h)
  | n + 1, h => do
    let res ← forecastStep ops m tgt h
    let rest ← forecastLoop ops m tgt n res.2
    pure (res.1 :: rest.1, rest.2)

/-- `recursive_forecast_cpu(df, model, n_days)`: seed the buffer with
`df.tail(7)`, run the loop with the prediction fed back into `usage_cpu`,
return the predictions. -/
def recursive_forecast_cpu (ops : Ops α) (df : Frame α) (m : Model α)
    (n_days : Nat) : Except Err (List α) :=
  (forecastLoop ops m "usage_cpu" n_days (tailN 7 df)).map Prod.fst

/-- `recursive_forecast_storage(df, model, n_days)`: identical body, the
prediction is fed back into `usage_storage` instead. -/
def recursive_forecast_storage (ops : Ops α) (df : Frame α) (m : Model α)
    (n_days : Nat) : Except Err (List α) :=
  (forecastLoop ops m "usage_storage" n_days (tailN 7 df)).map Prod.fst

/-! ### Single-shot feature completer -/

/-- The `if len(recent) >= 1` lag-1 block of
`prepare_single_prediction_features` (lines 284-287): unconditional writes. -/
def lag1Fill (recent : Frame α) (f0 : Row α) : Except Err (Row α) :=
  if 1 ≤ recent.length then do
    let a ← colIloc recent "usage_cpu" 1
    let b ← colIloc recent "usage_storage" 1
    let c ← colIloc recent "users_active" 1
    pure (rset (rset (rset f0 "usage_cpu_lag_1" a) "usage_storage_lag_1" b)
      "users_active_lag_1" c)
  else pure f0

/-- The `if len(recent) >= 3` lag-3 block (lines 290-293). -/
def lag3Fill (recent : Frame α) (f0 : Row α) : Except Err (Row α) :=
  if 3 ≤ recent.length then do
    let a ← colIloc recent "usage_cpu" 3
    let b ← colIloc recent "usage_storage" 3
    let c ← colIloc recent "users_active" 3
    pure (rset (rset (rset f0 "usage_cpu_lag_3" a) "usage_storage_lag_3" b)
      "users_active_lag_3" c)
  else pure f0

/-- The `if len(recent) >= 7` lag-7 block (lines 296-299). -/
def lag7Fill (recent : Frame α) (f0 : Row α) : Except Err (Row α) :=
  if 7 ≤ recent.length then do
    let a ← colIloc recent "usage_cpu" 7
    let b ← colIloc recent "usage_storage" 7
    let c ← colIloc recent "users_active" 7
    pure (rset (rset (rset f0 "usage_cpu_lag_7" a) "usage_storage_lag_7" b)
      "users_active_lag_7" c)
  else pure f0

/-- The lag part of the history block of `prepare_single_prediction_features`
(lines 284-299). -/
def historyLagFill (recent : Frame α) (f0 : Row α) : Except Err (Row α) := do
  let f ← lag1Fill recent f0
  let f ← lag3Fill recent f
  lag7Fill recent f

/-- The rolling part of the history block (lines 302-306): unconditional
writes of all four statistics for one metric. -/
def rollFill (ops : Ops α) (recent : Frame α) (col : String) (f0 : Row α) :
    Except Err (Row α) := do
  let cs ← colVals recent col
  let f := rset f0 (col ++ "_rolling_mean_3") (listMean (tailN 3 cs))
  let f := rset f (col ++ "_rolling_std_3") (pandasStd ops (tailN 3 cs))
  let f := rset f (col ++ "_rolling_mean_7") (listMean (tailN 7 cs))
  pure (rset f (col ++ "_rolling_std_7") (pandasStd ops (tailN 7 cs)))

/-- The `if key not in features: features[key] = <expr>` pattern of the
derived block. -/
def fillIfAbsent (f : Row α) (key : String) (v : α) : Row α :=
  if rmem f key then f else rset f key v

/-- The derived block (lines 309-334): fill each derived feature only when
absent, reading dependencies with `features.get(key, default)` — default 0
for numerators/addends, 1 for denominators. -/
def derivedFill (f0 : Row α) : Row α :=
  let f1 := fillIfAbsent f0 "cpu_per_user"
    (gget f0 "usage_cpu_lag_1" 0 / (gget f0 "users_active_lag_1" 1 + epsilon))
  let f2 := fillIfAbsent f1 "storage_per_user"
    (gget f1 "usage_storage_lag_1" 0 / (gget f1 "users_active_lag_1" 1 + epsilon))
  let f3 := fillIfAbsent f2 "cpu_storage_ratio"
    (gget f2 "usage_cpu_lag_1" 0 / (gget f2 "usage_storage_lag_1" 1 + epsilon))
  let f4 := fillIfAbsent f3 "econ_demand_ratio"
    (gget f3 "economic_index" 0 / (gget f3 "cloud_market_demand" 1 + epsilon))
  let f5 := fillIfAbsent f4 "system_stress"
    (gget f4 "usage_cpu_lag_1" 0 + gget f4 "usage_storage_lag_1" 0 +
      gget f4 "users_active_lag_1" 0)
  let f6 := fillIfAbsent f5 "cpu_utilization_ratio"
    (gget f5 "usage_cpu_lag_1" 0 / 100)
  fillIfAbsent f6 "storage_efficiency"
    (gget f6 "usage_storage_lag_1" 0 / (gget f6 "users_active_lag_1" 1 + epsilon))

/-- The whole history block of `prepare_single_prediction_features`
(lines 281-306): lag fills then the rolling fills for the three metrics,
all against `recent = df.tail(7)`. -/
def historyFill (ops : Ops α) (df : Frame α) (f0 : Row α) :
    Except Err (Row α) := do
  let recent := tailN 7 df
  let f ← historyLagFill recent f0
  let f ← rollFill ops recent "usage_cpu" f
  let f ← rollFill ops recent "usage_storage" f
  rollFill ops recent "users_active" f

/-- `prepare_single_prediction_features(input_data, df)`: the whole history
block runs only when `'usage_cpu_lag_1' not in features`; the derived block
always runs. -/
def prepare_single_prediction_features (ops : Ops α) (input_data : Row α)
    (df : Frame α) : Except Err (Row α) :=
  (if rmem input_data "usage_cpu_lag_1" then pure input_data
   else historyFill ops df input_data).map derivedFill

/-! ### Key sets and well-formedness -/

/-- The three raw metric columns. -/
def rawCols : List String := ["usage_cpu", "usage_storage", "users_active"]

/-- The nine lag feature names (the keys stage 2 may write). -/
def lagKeys : List String :=
  ["usage_cpu_lag_1", "usage_storage_lag_1", "users_active_lag_1",
   "usage_cpu_lag_3", "usage_storage_lag_3", "users_active_lag_3",
   "usage_cpu_lag_7", "usage_storage_lag_7", "users_active_lag_7"]

/-- The twelve rolling feature names (the keys stage 3 may write). -/
def rollKeys : List String :=
  ["usage_cpu_rolling_mean_3", "usage_cpu_rolling_std_3",
   "usage_cpu_rolling_mean_7", "usage_cpu_rolling_std_7",
   "usage_storage_rolling_mean_3", "usage_storage_rolling_std_3",
   "usage_storage_rolling_mean_7", "usage_storage_rolling_std_7",
   "users_active_rolling_mean_3", "users_active_rolling_std_3",
   "users_active_rolling_mean_7", "users_active_rolling_std_7"]

/-- The seven derived feature names (the keys stage 4 may write). -/
def derivedKeys : List String :=
  ["cpu_per_user", "storage_per_user", "cpu_storage_ratio",
   "econ_demand_ratio", "system_stress", "cpu_utilization_ratio",
   "storage_efficiency"]

/-- The three calendar keys (the keys stage 1 may write). -/
def calKeys : List String := ["month", "year", "is_weekend"]

/-- Sufficient well-formedness of one historical record for the recursive loop
to run without a KeyError: the raw metric columns and the lag-1 features are
present (as in the repository's engineered dataset), a `year` column comes
with a `month` column, and `econ_demand_ratio` comes with its two raw
dependencies.  Matches the columns §6 of the spec requires plus the lag-1
features read unconditionally by stage 4. -/
def RowOK (r : Row α) : Prop :=
  rmem r "usage_cpu" = true ∧ rmem r "usage_storage" = true ∧
  rmem r "users_active" = true ∧
  rmem r "usage_cpu_lag_1" = true ∧ rmem r "usage_storage_lag_1" = true ∧
  rmem r "users_active_lag_1" = true ∧
  (rmem r "year" = true → rmem r "month" = true) ∧
  (rmem r "econ_demand_ratio" = true →
    rmem r "economic_index" = true ∧ rmem r "cloud_market_demand" = true)

instance (r : Row α) : Decidable (RowOK r) := by
  unfold RowOK
  infer_instance

/-! ### Concrete instances used by witnesses and counterexamples

Over `ℚ`, the two non-field primitives are instantiated with `x % 12`
modelled as floor-based remainder (matching Python's float `%`) and an
arbitrary total function for `sqrt` — no rational witness below inspects a
standard-deviation value, so any function is adequate there.  Over `ℝ`,
`sqrt` is `Real.sqrt`, which is what the standard-deviation claims are
about. -/

def opsQ : Ops ℚ := ⟨fun x => x, fun x => x - 12 * ((Int.floor (x / 12) : Int) : ℚ)⟩

noncomputable def opsR : Ops ℝ :=
  ⟨Real.sqrt, fun x => x - 12 * ((Int.floor (x / 12) : Int) : ℝ)⟩

/-- A plain historical record carrying the raw metrics and lag-1 features. -/
def pRow (c : ℚ) : Row ℚ :=
  [("usage_cpu", c), ("usage_storage", c), ("users_active", c),
   ("usage_cpu_lag_1", 0), ("usage_storage_lag_1", 0), ("users_active_lag_1", 0)]

/-- A 7-row dataset of plain records. -/
def pdf : Frame ℚ := [pRow 1, pRow 2, pRow 3, pRow 4, pRow 5, pRow 6, pRow 7]

/-- A 3-row dataset (fewer than the 7 rows the spec demands). -/
def pdf3 : Frame ℚ := [pRow 1, pRow 2, pRow 3]

/-- A predictor declaring one feature name that no reconstruction stage
produces; its prediction reveals whether it was handed the undefined marker:
1 exactly when the submitted vector is `[none]`. -/
def mBogus : Model ℚ :=
  ⟨["bogus_feature"], fun cells => if cells = [none] then 1 else 0⟩

/-- A predictor echoing `usage_cpu_lag_1` unchanged. -/
def mId : Model ℚ :=
  ⟨["usage_cpu_lag_1"], fun cells => (cells.headD none).getD 0⟩

/-- The record shape of the spec's concrete scenario (§8): raw metrics,
lag-1 features, and the CPU lag/rolling-mean features the stub predictor
reads. -/
def qRow (c : ℚ) : Row ℚ :=
  [("usage_cpu", c), ("usage_storage", 1), ("users_active", 1),
   ("usage_cpu_lag_1", 0), ("usage_storage_lag_1", 0), ("users_active_lag_1", 0),
   ("usage_cpu_lag_3", 0), ("usage_cpu_lag_7", 0),
   ("usage_cpu_rolling_mean_3", 0), ("usage_cpu_rolling_mean_7", 0)]

/-- The spec's seed: `usage_cpu` = [10,12,11,13,14,15,16], chronological. -/
def qdf : Frame ℚ := [qRow 10, qRow 12, qRow 11, qRow 13, qRow 14, qRow 15, qRow 16]

/-- The spec's stub predictor returning `lag_1 + 1` (feature list ordered
with `usage_cpu_lag_1` first). -/
def mStub : Model ℚ :=
  ⟨["usage_cpu_lag_1", "usage_cpu_lag_3", "usage_cpu_lag_7",
    "usage_cpu_rolling_mean_3", "usage_cpu_rolling_mean_7"],
   fun cells => (cells.headD none).getD 0 + 1⟩

/-- The record the day-0 CPU forecast appends on the spec's seed. -/
def c4row0 : Row ℚ :=
  [("usage_cpu", 17), ("usage_storage", 1), ("users_active", 1),
   ("usage_cpu_lag_1", 16), ("usage_storage_lag_1", 1), ("users_active_lag_1", 1),
   ("usage_cpu_lag_3", 14), ("usage_cpu_lag_7", 10),
   ("usage_cpu_rolling_mean_3", 15), ("usage_cpu_rolling_mean_7", 13)]

/-- The template after stage 2 (lags) of day 0 on the spec's seed. -/
def c4rowL : Row ℚ :=
  [("usage_cpu", 16), ("usage_storage", 1), ("users_active", 1),
   ("usage_cpu_lag_1", 16), ("usage_storage_lag_1", 1), ("users_active_lag_1", 1),
   ("usage_cpu_lag_3", 14), ("usage_cpu_lag_7", 10),
   ("usage_cpu_rolling_mean_3", 0), ("usage_cpu_rolling_mean_7", 0)]

/-- The template after stage 3 (rolling) of day 0 on the spec's seed. -/
def c4rowR : Row ℚ :=
  [("usage_cpu", 16), ("usage_storage", 1), ("users_active", 1),
   ("usage_cpu_lag_1", 16), ("usage_storage_lag_1", 1), ("users_active_lag_1", 1),
   ("usage_cpu_lag_3", 14), ("usage_cpu_lag_7", 10),
   ("usage_cpu_rolling_mean_3", 15), ("usage_cpu_rolling_mean_7", 13)]

/-- The template after stage 2 (lags) of day 1 (buffer grown by the day-0
record). -/
def c4rowL2 : Row ℚ :=
  [("usage_cpu", 17), ("usage_storage", 1), ("users_active", 1),
   ("usage_cpu_lag_1", 17), ("usage_storage_lag_1", 1), ("users_active_lag_1", 1),
   ("usage_cpu_lag_3", 15), ("usage_cpu_lag_7", 12),
   ("usage_cpu_rolling_mean_3", 15), ("usage_cpu_rolling_mean_7", 13)]

/-- The template after stage 3 (rolling) of day 1. -/
def c4rowR2 : Row ℚ :=
  [("usage_cpu", 17), ("usage_storage", 1), ("users_active", 1),
   ("usage_cpu_lag_1", 17), ("usage_storage_lag_1", 1), ("users_active_lag_1", 1),
   ("usage_cpu_lag_3", 15), ("usage_cpu_lag_7", 12),
   ("usage_cpu_rolling_mean_3", 16), ("usage_cpu_rolling_mean_7", 14)]

/-- The record the day-1 CPU forecast appends on the spec's seed. -/
def c4row1 : Row ℚ :=
  [("usage_cpu", 18), ("usage_storage", 1), ("users_active", 1),
   ("usage_cpu_lag_1", 17), ("usage_storage_lag_1", 1), ("users_active_lag_1", 1),
   ("usage_cpu_lag_3", 15), ("usage_cpu_lag_7", 12),
   ("usage_cpu_rolling_mean_3", 16), ("usage_cpu_rolling_mean_7", 14)]

/-- Real-valued record carrying a rolling-std feature. -/
noncomputable def rRow (c : ℝ) : Row ℝ :=
  [("usage_cpu", c), ("usage_storage", 1), ("users_active", 1),
   ("usage_cpu_lag_1", 0), ("usage_storage_lag_1", 0), ("users_active_lag_1", 0),
   ("usage_cpu_rolling_std_3", 0)]

/-- Real-valued 7-row dataset whose last three `usage_cpu` values are
0, 0, 2 — a window where sample and population standard deviation differ. -/
noncomputable def rdf : Frame ℝ :=
  [rRow 1, rRow 1, rRow 1, rRow 1, rRow 0, rRow 0, rRow 2]

/-- The `usage_cpu` column of `rdf`. -/
noncomputable def cpuColR : List ℝ := [1, 1, 1, 1, 0, 0, 2]

/-- A real-valued predictor echoing the rolling-std-3 feature. -/
noncomputable def mStd : Model ℝ :=
  ⟨["usage_cpu_rolling_std_3"], fun cells => (cells.headD none).getD 0⟩

/-- Single-shot input supplying only a rolling feature (no `usage_cpu_lag_1`). -/
def c8input : Row ℚ := [("usage_cpu_rolling_mean_3", 5)]

/-- A 7-row dataset whose metrics are all 1, so every recomputed rolling
mean equals 1 (≠ the caller-supplied 5). -/
def c8df : Frame ℚ :=
  [pRow 1, pRow 1, pRow 1, pRow 1, pRow 1, pRow 1, pRow 1]

/-- The row after the lag block of the history recomputation on `c8input`. -/
def c8f1 : Row ℚ :=
  [("usage_cpu_rolling_mean_3", 5),
   ("usage_cpu_lag_1", 1), ("usage_storage_lag_1", 1), ("users_active_lag_1", 1),
   ("usage_cpu_lag_3", 1), ("usage_storage_lag_3", 1), ("users_active_lag_3", 1),
   ("usage_cpu_lag_7", 1), ("usage_storage_lag_7", 1), ("users_active_lag_7", 1)]

/-- A record carrying the two storage-derived features for the C9 witness. -/
def w9Row : Row ℚ :=
  [("usage_cpu", 4), ("usage_storage", 8), ("users_active", 2),
   ("usage_cpu_lag_1", 0), ("usage_storage_lag_1", 0), ("users_active_lag_1", 0),
   ("storage_per_user", 0), ("storage_efficiency", 0)]

/-- One-record buffer for the C9 witness. -/
def fr9 : Frame ℚ := [w9Row]

/-- Single-shot input for the C10 witness: `usage_cpu_lag_1` supplied, one
lag-3 feature supplied, everything else absent. -/
def input10 : Row ℚ := [("usage_cpu_lag_1", 3), ("usage_cpu_lag_3", 9)]

/-- A record carrying a rolling-mean feature for the C3 witness. -/
def w3Row (c : ℚ) : Row ℚ :=
  [("usage_cpu", c), ("usage_storage", 1), ("users_active", 1),
   ("usage_cpu_lag_1", 0), ("usage_storage_lag_1", 0), ("users_active_lag_1", 0),
   ("usage_cpu_rolling_mean_3", 0)]

/-- 7-row rational dataset for the C3 witness. -/
def wdf3 : Frame ℚ :=
  [w3Row 1, w3Row 2, w3Row 3, w3Row 4, w3Row 5, w3Row 6, w3Row 7]

/-! ## Basic lemmas: the Except monad, rows, columns -/

theorem ok_bind {β γ : Type} (a : β) (f : β → Except Err γ) :
    (Except.ok a >>= f) = f a := rfl

theorem err_bind {β γ : Type} (e : Err) (f : β → Except Err γ) :
    ((Except.error e : Except Err β) >>= f) = Except.error e := rfl

theorem pure_eq_ok {β : Type} (a : β) : (pure a : Except Err β) = Except.ok a := rfl

theorem bind_ok_iff {β γ : Type} {x : Except Err β} {f : β → Except Err γ}
    {y : γ} : (x >>= f) = Except.ok y ↔ ∃ b, x = Except.ok b ∧ f b = Except.ok y := by
  cases x <;> simp [ok_bind, err_bind]

theorem map_ok_iff {β γ : Type} {x : Except Err β} {f : β → γ} {y : γ} :
    x.map f = Except.ok y ↔ ∃ b, x = Except.ok b ∧ f b = y := by
  cases x <;> simp [Except.map]

variable {α : Type} [Field α] [DecidableEq α]

theorem rget_rset_self (r : Row α) (k : String) (v : α) :
    rget (rset r k v) k = some v := by
  induction r with
  | nil => simp [rset, rget]
  | cons p r ih =>
    obtain ⟨k', v'⟩ := p
    by_cases h : k' = k
    · simp [rset, h, rget]
    · simp [rset, h, rget, ih]

theorem rget_rset_ne (r : Row α) {k k' : String} (v : α) (hne : k' ≠ k) :
    rget (rset r k v) k' = rget r k' := by
  have hne' : k ≠ k' := Ne.symm hne
  induction r with
  | nil => simp [rset, rget, hne']
  | cons p r ih =>
    obtain ⟨k'', v''⟩ := p
    by_cases h : k'' = k
    · subst h
      simp [rset, rget, hne']
    · simp [rset, h, rget, ih]

theorem rmem_rset_self (r : Row α) (k : String) (v : α) :
    rmem (rset r k v) k = true := by
  simp [rmem, rget_rset_self]

theorem rmem_rset_ne (r : Row α) {k k' : String} (v : α) (hne : k' ≠ k) :
    rmem (rset r k v) k' = rmem r k' := by
  simp [rmem, rget_rset_ne r v hne]

theorem rmem_rset_of_rmem (r : Row α) {k : String} (v : α) (k' : String)
    (h : rmem r k = true) : rmem (rset r k v) k' = rmem r k' := by
  by_cases hk : k' = k
  · subst hk; simp [rmem_rset_self, h]
  · exact rmem_rset_ne r v hk

theorem rmem_rsetIf (r : Row α) (k k' : String) (v : α) :
    rmem (rsetIf r k v) k' = rmem r k' := by
  unfold rsetIf
  by_cases h : rmem r k = true
  · simp [h, rmem_rset_of_rmem r v k' h]
  · simp [h]

theorem rget_rsetIf_ne (r : Row α) {k k' : String} (v : α) (hne : k' ≠ k) :
    rget (rsetIf r k v) k' = rget r k' := by
  unfold rsetIf
  split <;> simp [rget_rset_ne r v hne]

theorem rget_rsetIf_self (r : Row α) {k : String} (v : α) (h : rmem r k = true) :
    rget (rsetIf r k v) k = some v := by
  simp [rsetIf, h, rget_rset_self]

theorem rget_none_of_not_rmem {r : Row α} {k : String} (h : rmem r k = false) :
    rget r k = none := by
  revert h
  unfold rmem
  cases rget r k <;> simp

theorem need_ok_iff {r : Row α} {k : String} {v : α} :
    need r k = Except.ok v ↔ rget r k = some v := by
  unfold need
  cases rget r k <;> simp

theorem need_ok_of_rmem {r : Row α} {k : String} (h : rmem r k = true) :
    ∃ v, need r k = Except.ok v ∧ rget r k = some v := by
  unfold rmem at h
  cases hv : rget r k with
  | none => rw [hv] at h; simp at h
  | some v => exact ⟨v, need_ok_iff.mpr hv, rfl⟩

theorem colVals_ok_length {h : Frame α} {c : String} {cs : List α}
    (hc : colVals h c = Except.ok cs) : cs.length = h.length := by
  induction h generalizing cs with
  | nil => simp [colVals] at hc; simp [← hc]
  | cons r h ih =>
    unfold colVals at hc
    cases hr : rget r c with
    | none => rw [hr] at hc; simp at hc
    | some v =>
      rw [hr] at hc
      rw [map_ok_iff] at hc
      obtain ⟨cs', h1, h2⟩ := hc
      subst h2
      simp [ih h1]

theorem colVals_ok_of_mem {h : Frame α} {c : String}
    (hm : ∀ r ∈ h, rmem r c = true) : ∃ cs, colVals h c = Except.ok cs := by
  induction h with
  | nil => exact ⟨[], rfl⟩
  | cons r h ih =>
    have hr := hm r (List.mem_cons_self r h)
    unfold rmem at hr
    cases hv : rget r c with
    | none => rw [hv] at hr; simp at hr
    | some v =>
      obtain ⟨cs, hcs⟩ := ih (fun r' hr' => hm r' (List.mem_cons_of_mem r hr'))
      exact ⟨v :: cs, by simp [colVals, hv, hcs, Except.map]⟩

theorem colVals_getLast {h : Frame α} {c : String} {cs : List α} {t : Row α}
    (hc : colVals h c = Except.ok cs) (ht : h.getLast? = some t) :
    cs.getLast? = rget t c := by
  induction h generalizing cs with
  | nil => simp at ht
  | cons r h ih =>
    unfold colVals at hc
    cases hr : rget r c with
    | none => rw [hr] at hc; simp at hc
    | some v =>
      rw [hr] at hc
      rw [map_ok_iff] at hc
      obtain ⟨cs', h1, h2⟩ := hc
      subst h2
      cases h with
      | nil =>
        simp [colVals] at h1
        simp at ht
        subst ht
        subst h1
        simp [hr]
      | cons r' h' =>
        rw [List.getLast?_cons_cons] at ht
        have hcs' : cs' ≠ [] := by
          intro hh
          have := colVals_ok_length h1
          rw [hh] at this
          simp at this
        obtain ⟨b, l, rfl⟩ := List.exists_cons_of_ne_nil hcs'
        rw [List.getLast?_cons_cons]
        exact ih h1 ht

theorem ilocNeg_one (cs : List α) : ilocNeg cs 1 = cs.getLast? := by
  unfold ilocNeg
  cases cs with
  | nil => simp
  | cons a l =>
    rw [List.getLast?_eq_getElem?]
    simp

theorem ilocNeg_ok {cs : List α} {k : Nat} (h1 : 1 ≤ k) (h2 : k ≤ cs.length) :
    ∃ v, ilocNeg cs k = some v := by
  unfold ilocNeg
  rw [if_pos ⟨h1, h2⟩]
  have hlt : cs.length - k < cs.length := by omega
  exact ⟨cs[cs.length - k], List.getElem?_eq_getElem hlt⟩

theorem tailN_length (n : Nat) (l : List β) :
    (tailN n l).length = min n l.length := by
  unfold tailN
  rw [List.length_drop]
  omega

theorem tailN_eq_self {n : Nat} {l : List β} (h : l.length ≤ n) :
    tailN n l = l := by
  unfold tailN
  rw [Nat.sub_eq_zero_of_le h]
  exact List.drop_zero l

theorem string_append_ne (col : String) {s1 s2 : String} (h : s1 ≠ s2) :
    col ++ s1 ≠ col ++ s2 := by
  intro he
  apply h
  have hd : (col ++ s1).data = (col ++ s2).data := congrArg String.data he
  simp [String.data_append] at hd
  exact String.ext hd

/-! ## Frame lemmas for the guarded-update combinators -/

theorem guardedWrite_absent {r : Row α} {key : String} {comp : Except Err α}
    (h : rmem r key = false) : guardedWrite r key comp = Except.ok r := by
  simp [guardedWrite, h, pure_eq_ok]

theorem guardedWrite_ok_cases {r r' : Row α} {key : String}
    {comp : Except Err α} (h : guardedWrite r key comp = Except.ok r') :
    (rmem r key = false ∧ r' = r) ∨
    (rmem r key = true ∧ ∃ v, comp = Except.ok v ∧ r' = rset r key v) := by
  unfold guardedWrite at h
  by_cases hg : rmem r key = true
  · right
    rw [if_pos hg, bind_ok_iff] at h
    obtain ⟨v, hv, h2⟩ := h
    rw [pure_eq_ok] at h2
    exact ⟨hg, v, hv, (Except.ok.inj h2).symm⟩
  · left
    rw [if_neg hg, pure_eq_ok] at h
    simp at hg
    exact ⟨hg, (Except.ok.inj h).symm⟩

theorem guardedWrite_ok_rmem {r r' : Row α} {key : String}
    {comp : Except Err α} (h : guardedWrite r key comp = Except.ok r')
    (k : String) : rmem r' k = rmem r k := by
  rcases guardedWrite_ok_cases h with ⟨_, rfl⟩ | ⟨hg, v, _, rfl⟩
  · rfl
  · exact rmem_rset_of_rmem r v k hg

theorem guardedWrite_ok_rget_ne {r r' : Row α} {key k : String}
    {comp : Except Err α} (h : guardedWrite r key comp = Except.ok r')
    (hne : k ≠ key) : rget r' k = rget r k := by
  rcases guardedWrite_ok_cases h with ⟨_, rfl⟩ | ⟨_, v, _, rfl⟩
  · rfl
  · exact rget_rset_ne r v hne

theorem guardedWrite_ok_self {r r' : Row α} {key : String}
    {comp : Except Err α} (hg : rmem r key = true)
    (h : guardedWrite r key comp = Except.ok r') :
    ∃ v, comp = Except.ok v ∧ rget r' key = some v := by
  rcases guardedWrite_ok_cases h with ⟨hf, _⟩ | ⟨_, v, hv, rfl⟩
  · rw [hg] at hf; cases hf
  · exact ⟨v, hv, rget_rset_self r key v⟩

theorem guardedWrite_ok_of {r : Row α} {key : String} {comp : Except Err α}
    (hc : rmem r key = true → ∃ v, comp = Except.ok v) :
    ∃ r', guardedWrite r key comp = Except.ok r' := by
  unfold guardedWrite
  by_cases hg : rmem r key = true
  · obtain ⟨v, hv⟩ := hc hg
    exact ⟨rset r key v, by rw [if_pos hg, hv, ok_bind, pure_eq_ok]⟩
  · exact ⟨r, by rw [if_neg hg, pure_eq_ok]⟩

theorem yearUpd_ok_cases {r r' : Row α} (h : yearUpd r = Except.ok r') :
    r' = r ∨ (rmem r "year" = true ∧ ∃ y, r' = rset r "year" y) := by
  unfold yearUpd at h
  by_cases hg : rmem r "year" = true
  · rw [if_pos hg, bind_ok_iff] at h
    obtain ⟨mo, _, h⟩ := h
    by_cases hmo : mo = 1
    · rw [if_pos hmo, bind_ok_iff] at h
      obtain ⟨y, _, h2⟩ := h
      rw [pure_eq_ok] at h2
      exact Or.inr ⟨hg, y + 1, (Except.ok.inj h2).symm⟩
    · rw [if_neg hmo, pure_eq_ok] at h
      exact Or.inl (Except.ok.inj h).symm
  · rw [if_neg hg, pure_eq_ok] at h
    exact Or.inl (Except.ok.inj h).symm

theorem yearUpd_ok_rmem {r r' : Row α} (h : yearUpd r = Except.ok r')
    (k : String) : rmem r' k = rmem r k := by
  rcases yearUpd_ok_cases h with rfl | ⟨hg, y, rfl⟩
  · rfl
  · exact rmem_rset_of_rmem r y k hg

theorem yearUpd_ok_rget_ne {r r' : Row α} (h : yearUpd r = Except.ok r')
    {k : String} (hne : k ≠ "year") : rget r' k = rget r k := by
  rcases yearUpd_ok_cases h with rfl | ⟨_, y, rfl⟩
  · rfl
  · exact rget_rset_ne r y hne

theorem yearUpd_ok_of {r : Row α}
    (himp : rmem r "year" = true → rmem r "month" = true) :
    ∃ r', yearUpd r = Except.ok r' := by
  unfold yearUpd
  by_cases hg : rmem r "year" = true
  · obtain ⟨mo, hmo, _⟩ := need_ok_of_rmem (himp hg)
    rw [if_pos hg, hmo, ok_bind]
    by_cases h1 : mo = 1
    · obtain ⟨y, hy, _⟩ := need_ok_of_rmem hg
      exact ⟨rset r "year" (y + 1), by rw [if_pos h1, hy, ok_bind, pure_eq_ok]⟩
    · exact ⟨r, by rw [if_neg h1, pure_eq_ok]⟩
  · exact ⟨r, by rw [if_neg hg, pure_eq_ok]⟩

/-! ## Stage-level frame lemmas -/

theorem calendarAdvance_ok_rmem {ops : Ops α} {r r' : Row α}
    (h : calendarAdvance ops r = Except.ok r') (k : String) :
    rmem r' k = rmem r k := by
  unfold calendarAdvance at h
  rw [bind_ok_iff] at h
  obtain ⟨r1, h1, h⟩ := h
  rw [bind_ok_iff] at h
  obtain ⟨r2, h2, h⟩ := h
  rw [guardedWrite_ok_rmem h k, yearUpd_ok_rmem h2 k, guardedWrite_ok_rmem h1 k]

theorem calendarAdvance_ok_rget {ops : Ops α} {r r' : Row α}
    (h : calendarAdvance ops r = Except.ok r') {k : String}
    (h1 : k ≠ "month") (h2 : k ≠ "year") (h3 : k ≠ "is_weekend") :
    rget r' k = rget r k := by
  unfold calendarAdvance at h
  rw [bind_ok_iff] at h
  obtain ⟨r1, hh1, h⟩ := h
  rw [bind_ok_iff] at h
  obtain ⟨r2, hh2, h⟩ := h
  rw [guardedWrite_ok_rget_ne h h3, yearUpd_ok_rget_ne hh2 h2,
    guardedWrite_ok_rget_ne hh1 h1]

theorem calendarAdvance_ok_of (ops : Ops α) {r : Row α}
    (himp : rmem r "year" = true → rmem r "month" = true) :
    ∃ r', calendarAdvance ops r = Except.ok r' := by
  unfold calendarAdvance
  have hm : rmem r "month" = true → ∃ v,
      (need r "month").map (fun mo => ops.mod12 mo + 1) = Except.ok v := by
    intro hg
    obtain ⟨mo, hmo, _⟩ := need_ok_of_rmem hg
    exact ⟨ops.mod12 mo + 1, by rw [hmo]; rfl⟩
  obtain ⟨r1, hr1⟩ := guardedWrite_ok_of hm
  have hy : rmem r1 "year" = true → rmem r1 "month" = true := by
    intro hg
    rw [guardedWrite_ok_rmem hr1] at hg ⊢
    by_cases hmm : rmem r "month" = true
    · exact hmm
    · exact himp hg
  obtain ⟨r2, hr2⟩ := yearUpd_ok_of hy
  have hw : rmem r2 "is_weekend" = true → ∃ v,
      (need r2 "is_weekend").map (fun w => 1 - w) = Except.ok v := by
    intro hg
    obtain ⟨w, hwv, _⟩ := need_ok_of_rmem hg
    exact ⟨1 - w, by rw [hwv]; rfl⟩
  obtain ⟨r3, hr3⟩ := guardedWrite_ok_of hw
  exact ⟨r3, by rw [hr1, ok_bind, hr2, ok_bind, hr3]⟩

theorem colIloc_ok {h : Frame α} {col : String} {off : Nat}
    (hm : ∀ rr ∈ h, rmem rr col = true) (h1 : 1 ≤ off) (h2 : off ≤ h.length) :
    ∃ v, colIloc h col off = Except.ok v := by
  obtain ⟨cs, hcs⟩ := colVals_ok_of_mem hm
  have hlen := colVals_ok_length hcs
  obtain ⟨v, hv⟩ := ilocNeg_ok h1 (by rw [hlen]; exact h2)
  exact ⟨v, by unfold colIloc; rw [hcs, ok_bind, hv]⟩

theorem colIloc_one_getLast {h : Frame α} {col : String} {v : α} {t : Row α}
    (hc : colIloc h col 1 = Except.ok v) (ht : h.getLast? = some t) :
    rget t col = some v := by
  unfold colIloc at hc
  rw [bind_ok_iff] at hc
  obtain ⟨cs, hcs, hc⟩ := hc
  have hlast := colVals_getLast hcs ht
  rw [ilocNeg_one] at hc
  cases hg : cs.getLast? with
  | none => rw [hg] at hc; simp at hc
  | some w =>
    rw [hg] at hc
    simp at hc
    rw [← hlast, hg, hc]

theorem lag3Upd_ok_rmem {fr : Frame α} {r r' : Row α}
    (hs : lag3Upd fr r = Except.ok r') (k : String) : rmem r' k = rmem r k := by
  unfold lag3Upd at hs
  by_cases hg : 3 ≤ fr.length
  · rw [if_pos hg] at hs
    rw [bind_ok_iff] at hs; obtain ⟨a, ha, hs⟩ := hs
    rw [bind_ok_iff] at hs; obtain ⟨b, hb, hs⟩ := hs
    rw [guardedWrite_ok_rmem hs k, guardedWrite_ok_rmem hb k,
      guardedWrite_ok_rmem ha k]
  · rw [if_neg hg, pure_eq_ok] at hs
    cases Except.ok.inj hs
    rfl

theorem lag7Upd_ok_rmem {fr : Frame α} {r r' : Row α}
    (hs : lag7Upd fr r = Except.ok r') (k : String) : rmem r' k = rmem r k := by
  unfold lag7Upd at hs
  by_cases hg : 7 ≤ fr.length
  · rw [if_pos hg] at hs
    rw [bind_ok_iff] at hs; obtain ⟨a, ha, hs⟩ := hs
    rw [bind_ok_iff] at hs; obtain ⟨b, hb, hs⟩ := hs
    rw [guardedWrite_ok_rmem hs k, guardedWrite_ok_rmem hb k,
      guardedWrite_ok_rmem ha k]
  · rw [if_neg hg, pure_eq_ok] at hs
    cases Except.ok.inj hs
    rfl

theorem lag3Upd_ok_rget {fr : Frame α} {r r' : Row α}
    (hs : lag3Upd fr r = Except.ok r') {k : String}
    (n4 : k ≠ "usage_cpu_lag_3") (n5 : k ≠ "usage_storage_lag_3")
    (n6 : k ≠ "users_active_lag_3") : rget r' k = rget r k := by
  unfold lag3Upd at hs
  by_cases hg : 3 ≤ fr.length
  · rw [if_pos hg] at hs
    rw [bind_ok_iff] at hs; obtain ⟨a, ha, hs⟩ := hs
    rw [bind_ok_iff] at hs; obtain ⟨b, hb, hs⟩ := hs
    rw [guardedWrite_ok_rget_ne hs n6, guardedWrite_ok_rget_ne hb n5,
      guardedWrite_ok_rget_ne ha n4]
  · rw [if_neg hg, pure_eq_ok] at hs
    cases Except.ok.inj hs
    rfl

theorem lag7Upd_ok_rget {fr : Frame α} {r r' : Row α}
    (hs : lag7Upd fr r = Except.ok r') {k : String}
    (n7 : k ≠ "usage_cpu_lag_7") (n8 : k ≠ "usage_storage_lag_7")
    (n9 : k ≠ "users_active_lag_7") : rget r' k = rget r k := by
  unfold lag7Upd at hs
  by_cases hg : 7 ≤ fr.length
  · rw [if_pos hg] at hs
    rw [bind_ok_iff] at hs; obtain ⟨a, ha, hs⟩ := hs
    rw [bind_ok_iff] at hs; obtain ⟨b, hb, hs⟩ := hs
    rw [guardedWrite_ok_rget_ne hs n9, guardedWrite_ok_rget_ne hb n8,
      guardedWrite_ok_rget_ne ha n7]
  · rw [if_neg hg, pure_eq_ok] at hs
    cases Except.ok.inj hs
    rfl

theorem lagStage_ok_rmem {fr : Frame α} {r r' : Row α}
    (hs : lagStage fr r = Except.ok r') (k : String) : rmem r' k = rmem r k := by
  unfold lagStage at hs
  rw [bind_ok_iff] at hs; obtain ⟨r1, h1, hs⟩ := hs
  rw [bind_ok_iff] at hs; obtain ⟨r2, h2, hs⟩ := hs
  rw [bind_ok_iff] at hs; obtain ⟨r3, h3, hs⟩ := hs
  rw [bind_ok_iff] at hs; obtain ⟨r4, h4, hs⟩ := hs
  rw [lag7Upd_ok_rmem hs k, lag3Upd_ok_rmem h4 k, guardedWrite_ok_rmem h3 k,
    guardedWrite_ok_rmem h2 k, guardedWrite_ok_rmem h1 k]

theorem lagStage_ok_rget {fr : Frame α} {r r' : Row α}
    (hs : lagStage fr r = Except.ok r') {k : String} (hk : k ∉ lagKeys) :
    rget r' k = rget r k := by
  simp only [lagKeys, List.mem_cons, List.not_mem_nil, or_false, not_or] at hk
  obtain ⟨n1, n2, n3, n4, n5, n6, n7, n8, n9⟩ := hk
  unfold lagStage at hs
  rw [bind_ok_iff] at hs; obtain ⟨r1, h1, hs⟩ := hs
  rw [bind_ok_iff] at hs; obtain ⟨r2, h2, hs⟩ := hs
  rw [bind_ok_iff] at hs; obtain ⟨r3, h3, hs⟩ := hs
  rw [bind_ok_iff] at hs; obtain ⟨r4, h4, hs⟩ := hs
  rw [lag7Upd_ok_rget hs n7 n8 n9, lag3Upd_ok_rget h4 n4 n5 n6,
    guardedWrite_ok_rget_ne h3 n3, guardedWrite_ok_rget_ne h2 n2,
    guardedWrite_ok_rget_ne h1 n1]

theorem lagStage_ok_cpu_lag1 {fr : Frame α} {r r' : Row α}
    (hm : rmem r "usage_cpu_lag_1" = true)
    (hs : lagStage fr r = Except.ok r') :
    ∃ v, colIloc fr "usage_cpu" 1 = Except.ok v ∧
      rget r' "usage_cpu_lag_1" = some v := by
  unfold lagStage at hs
  rw [bind_ok_iff] at hs; obtain ⟨r1, h1, hs⟩ := hs
  rw [bind_ok_iff] at hs; obtain ⟨r2, h2, hs⟩ := hs
  rw [bind_ok_iff] at hs; obtain ⟨r3, h3, hs⟩ := hs
  rw [bind_ok_iff] at hs; obtain ⟨r4, h4, hs⟩ := hs
  obtain ⟨v, hv, hcell⟩ := guardedWrite_ok_self hm h1
  refine ⟨v, hv, ?_⟩
  rw [lag7Upd_ok_rget hs (by decide) (by decide) (by decide),
    lag3Upd_ok_rget h4 (by decide) (by decide) (by decide),
    guardedWrite_ok_rget_ne h3 (by decide),
    guardedWrite_ok_rget_ne h2 (by decide), hcell]

theorem lagStage_ok_of {fr : Frame α} {r : Row α} (hne : fr ≠ [])
    (hcols : ∀ c ∈ rawCols, ∀ rr ∈ fr, rmem rr c = true) :
    ∃ r', lagStage fr r = Except.ok r' := by
  have hlen : 1 ≤ fr.length := by
    cases fr with
    | nil => exact absurd rfl hne
    | cons a l => simp
  have hcpu := hcols "usage_cpu" (by simp [rawCols])
  have hsto := hcols "usage_storage" (by simp [rawCols])
  have husr := hcols "users_active" (by simp [rawCols])
  have step1 : ∀ (rr : Row α) (key : String) (col : String)
      (_ : ∀ x ∈ fr, rmem x col = true),
      ∃ r2, lagUpd fr key col 1 rr = Except.ok r2 := by
    intro rr key col hcol
    exact guardedWrite_ok_of (fun _ => colIloc_ok hcol (by omega) hlen)
  obtain ⟨r1, h1⟩ := step1 r "usage_cpu_lag_1" "usage_cpu" hcpu
  obtain ⟨r2, h2⟩ := step1 r1 "usage_storage_lag_1" "usage_storage" hsto
  obtain ⟨r3, h3⟩ := step1 r2 "users_active_lag_1" "users_active" husr
  have step3 : ∀ (rr : Row α), ∃ r4, lag3Upd fr rr = Except.ok r4 := by
    intro rr
    unfold lag3Upd
    by_cases hg : 3 ≤ fr.length
    · obtain ⟨a, ha⟩ : ∃ a, lagUpd fr "usage_cpu_lag_3" "usage_cpu" 3 rr = Except.ok a :=
        guardedWrite_ok_of (fun _ => colIloc_ok hcpu (by omega) hg)
      obtain ⟨b, hb⟩ : ∃ b, lagUpd fr "usage_storage_lag_3" "usage_storage" 3 a = Except.ok b :=
        guardedWrite_ok_of (fun _ => colIloc_ok hsto (by omega) hg)
      obtain ⟨c, hc⟩ : ∃ c, lagUpd fr "users_active_lag_3" "users_active" 3 b = Except.ok c :=
        guardedWrite_ok_of (fun _ => colIloc_ok husr (by omega) hg)
      exact ⟨c, by rw [if_pos hg, ha, ok_bind, hb, ok_bind, hc]⟩
    · exact ⟨rr, by rw [if_neg hg, pure_eq_ok]⟩
  obtain ⟨r4, h4⟩ := step3 r3
  have step7 : ∀ (rr : Row α), ∃ r5, lag7Upd fr rr = Except.ok r5 := by
    intro rr
    unfold lag7Upd
    by_cases hg : 7 ≤ fr.length
    · obtain ⟨a, ha⟩ : ∃ a, lagUpd fr "usage_cpu_lag_7" "usage_cpu" 7 rr = Except.ok a :=
        guardedWrite_ok_of (fun _ => colIloc_ok hcpu (by omega) hg)
      obtain ⟨b, hb⟩ : ∃ b, lagUpd fr "usage_storage_lag_7" "usage_storage" 7 a = Except.ok b :=
        guardedWrite_ok_of (fun _ => colIloc_ok hsto (by omega) hg)
      obtain ⟨c, hc⟩ : ∃ c, lagUpd fr "users_active_lag_7" "users_active" 7 b = Except.ok c :=
        guardedWrite_ok_of (fun _ => colIloc_ok husr (by omega) hg)
      exact ⟨c, by rw [if_pos hg, ha, ok_bind, hb, ok_bind, hc]⟩
    · exact ⟨rr, by rw [if_neg hg, pure_eq_ok]⟩
  obtain ⟨r5, h5⟩ := step7 r4
  exact ⟨r5, by
    unfold lagStage
    rw [h1, ok_bind, h2, ok_bind, h3, ok_bind, h4, ok_bind, h5]⟩

theorem rollColUpd_ok_cases {ops : Ops α} {fr : Frame α} {col : String}
    {r r' : Row α} (hs : rollColUpd ops fr col r = Except.ok r') :
    ∃ cs, colVals fr col = Except.ok cs ∧
      r' = rsetIf (rsetIf (rsetIf (rsetIf r
        (col ++ "_rolling_mean_3") (listMean (tailN 3 cs)))
        (col ++ "_rolling_std_3") (pandasStd ops (tailN 3 cs)))
        (col ++ "_rolling_mean_7") (listMean (tailN 7 cs)))
        (col ++ "_rolling_std_7") (pandasStd ops (tailN 7 cs)) := by
  unfold rollColUpd at hs
  rw [bind_ok_iff] at hs
  obtain ⟨cs, hcs, hs⟩ := hs
  rw [pure_eq_ok] at hs
  exact ⟨cs, hcs, (Except.ok.inj hs).symm⟩

theorem rollColUpd_ok_rmem {ops : Ops α} {fr : Frame α} {col : String}
    {r r' : Row α} (hs : rollColUpd ops fr col r = Except.ok r') (k : String) :
    rmem r' k = rmem r k := by
  obtain ⟨cs, _, rfl⟩ := rollColUpd_ok_cases hs
  rw [rmem_rsetIf, rmem_rsetIf, rmem_rsetIf, rmem_rsetIf]

theorem rollColUpd_ok_rget_ne {ops : Ops α} {fr : Frame α} {col : String}
    {r r' : Row α} (hs : rollColUpd ops fr col r = Except.ok r') {k : String}
    (n1 : k ≠ col ++ "_rolling_mean_3") (n2 : k ≠ col ++ "_rolling_std_3")
    (n3 : k ≠ col ++ "_rolling_mean_7") (n4 : k ≠ col ++ "_rolling_std_7") :
    rget r' k = rget r k := by
  obtain ⟨cs, _, rfl⟩ := rollColUpd_ok_cases hs
  rw [rget_rsetIf_ne _ _ n4, rget_rsetIf_ne _ _ n3, rget_rsetIf_ne _ _ n2,
    rget_rsetIf_ne _ _ n1]

theorem rollColUpd_ok_of (ops : Ops α) {fr : Frame α} {col : String}
    {r : Row α} (hm : ∀ rr ∈ fr, rmem rr col = true) :
    ∃ r', rollColUpd ops fr col r = Except.ok r' := by
  obtain ⟨cs, hcs⟩ := colVals_ok_of_mem hm
  refine ⟨rsetIf (rsetIf (rsetIf (rsetIf r
      (col ++ "_rolling_mean_3") (listMean (tailN 3 cs)))
      (col ++ "_rolling_std_3") (pandasStd ops (tailN 3 cs)))
      (col ++ "_rolling_mean_7") (listMean (tailN 7 cs)))
      (col ++ "_rolling_std_7") (pandasStd ops (tailN 7 cs)), ?_⟩
  unfold rollColUpd
  rw [hcs, ok_bind, pure_eq_ok]

theorem rollColUpd_ok_vals {ops : Ops α} {fr : Frame α} {col : String}
    {r r' : Row α} (hs : rollColUpd ops fr col r = Except.ok r') :
    ∃ cs, colVals fr col = Except.ok cs ∧
      (rmem r (col ++ "_rolling_mean_3") = true →
        rget r' (col ++ "_rolling_mean_3") = some (listMean (tailN 3 cs))) ∧
      (rmem r (col ++ "_rolling_std_3") = true →
        rget r' (col ++ "_rolling_std_3") = some (pandasStd ops (tailN 3 cs))) ∧
      (rmem r (col ++ "_rolling_mean_7") = true →
        rget r' (col ++ "_rolling_mean_7") = some (listMean (tailN 7 cs))) ∧
      (rmem r (col ++ "_rolling_std_7") = true →
        rget r' (col ++ "_rolling_std_7") = some (pandasStd ops (tailN 7 cs))) := by
  obtain ⟨cs, hcs, rfl⟩ := rollColUpd_ok_cases hs
  have d12 : col ++ "_rolling_mean_3" ≠ col ++ "_rolling_std_3" :=
    string_append_ne col (by decide)
  have d13 : col ++ "_rolling_mean_3" ≠ col ++ "_rolling_mean_7" :=
    string_append_ne col (by decide)
  have d14 : col ++ "_rolling_mean_3" ≠ col ++ "_rolling_std_7" :=
    string_append_ne col (by decide)
  have d23 : col ++ "_rolling_std_3" ≠ col ++ "_rolling_mean_7" :=
    string_append_ne col (by decide)
  have d24 : col ++ "_rolling_std_3" ≠ col ++ "_rolling_std_7" :=
    string_append_ne col (by decide)
  have d34 : col ++ "_rolling_mean_7" ≠ col ++ "_rolling_std_7" :=
    string_append_ne col (by decide)
  refine ⟨cs, hcs, ?_, ?_, ?_, ?_⟩
  · intro hm
    rw [rget_rsetIf_ne _ _ d14, rget_rsetIf_ne _ _ d13, rget_rsetIf_ne _ _ d12,
      rget_rsetIf_self _ _ hm]
  · intro hm
    rw [rget_rsetIf_ne _ _ d24, rget_rsetIf_ne _ _ d23,
      rget_rsetIf_self _ _ (by rw [rmem_rsetIf]; exact hm)]
  · intro hm
    rw [rget_rsetIf_ne _ _ d34,
      rget_rsetIf_self _ _ (by rw [rmem_rsetIf, rmem_rsetIf]; exact hm)]
  · intro hm
    rw [rget_rsetIf_self _ _ (by rw [rmem_rsetIf, rmem_rsetIf, rmem_rsetIf]; exact hm)]

theorem rollStage_ok_rmem {ops : Ops α} {fr : Frame α} {r r' : Row α}
    (hs : rollStage ops fr r = Except.ok r') (k : String) :
    rmem r' k = rmem r k := by
  unfold rollStage at hs
  rw [bind_ok_iff] at hs; obtain ⟨r1, h1, hs⟩ := hs
  rw [bind_ok_iff] at hs; obtain ⟨r2, h2, hs⟩ := hs
  rw [rollColUpd_ok_rmem hs k, rollColUpd_ok_rmem h2 k, rollColUpd_ok_rmem h1 k]

theorem rollStage_ok_rget {ops : Ops α} {fr : Frame α} {r r' : Row α}
    (hs : rollStage ops fr r = Except.ok r') {k : String} (hk : k ∉ rollKeys) :
    rget r' k = rget r k := by
  simp only [rollKeys, List.mem_cons, List.not_mem_nil, or_false, not_or] at hk
  obtain ⟨n1, n2, n3, n4, n5, n6, n7, n8, n9, n10, n11, n12⟩ := hk
  unfold rollStage at hs
  rw [bind_ok_iff] at hs; obtain ⟨r1, h1, hs⟩ := hs
  rw [bind_ok_iff] at hs; obtain ⟨r2, h2, hs⟩ := hs
  rw [rollColUpd_ok_rget_ne hs n9 n10 n11 n12,
    rollColUpd_ok_rget_ne h2 n5 n6 n7 n8,
    rollColUpd_ok_rget_ne h1 n1 n2 n3 n4]

theorem rollStage_ok_of (ops : Ops α) {fr : Frame α} {r : Row α}
    (hcols : ∀ c ∈ rawCols, ∀ rr ∈ fr, rmem rr c = true) :
    ∃ r', rollStage ops fr r = Except.ok r' := by
  obtain ⟨r1, h1⟩ := rollColUpd_ok_of ops (r := r)
    (hcols "usage_cpu" (by simp [rawCols]))
  obtain ⟨r2, h2⟩ := rollColUpd_ok_of ops (r := r1)
    (hcols "usage_storage" (by simp [rawCols]))
  obtain ⟨r3, h3⟩ := rollColUpd_ok_of ops (r := r2)
    (hcols "users_active" (by simp [rawCols]))
  exact ⟨r3, by unfold rollStage; rw [h1, ok_bind, h2, ok_bind, h3]⟩

theorem rollStage_ok_vals {ops : Ops α} {fr : Frame α} {r r' : Row α}
    (hs : rollStage ops fr r = Except.ok r') :
    ∀ col ∈ rawCols, ∃ cs, colVals fr col = Except.ok cs ∧
      (rmem r (col ++ "_rolling_mean_3") = true →
        rget r' (col ++ "_rolling_mean_3") = some (listMean (tailN 3 cs))) ∧
      (rmem r (col ++ "_rolling_std_3") = true →
        rget r' (col ++ "_rolling_std_3") = some (pandasStd ops (tailN 3 cs))) ∧
      (rmem r (col ++ "_rolling_mean_7") = true →
        rget r' (col ++ "_rolling_mean_7") = some (listMean (tailN 7 cs))) ∧
      (rmem r (col ++ "_rolling_std_7") = true →
        rget r' (col ++ "_rolling_std_7") = some (pandasStd ops (tailN 7 cs))) := by
  unfold rollStage at hs
  rw [bind_ok_iff] at hs; obtain ⟨r1, h1, hs⟩ := hs
  rw [bind_ok_iff] at hs; obtain ⟨r2, h2, hs⟩ := hs
  intro col hcol
  simp only [rawCols, List.mem_cons, List.not_mem_nil, or_false] at hcol
  rcases hcol with rfl | rfl | rfl
  · obtain ⟨cs, hcs, v1, v2, v3, v4⟩ := rollColUpd_ok_vals h1
    refine ⟨cs, hcs, ?_, ?_, ?_, ?_⟩
    · intro hm
      rw [rollColUpd_ok_rget_ne hs (by decide) (by decide) (by decide) (by decide),
        rollColUpd_ok_rget_ne h2 (by decide) (by decide) (by decide) (by decide)]
      exact v1 hm
    · intro hm
      rw [rollColUpd_ok_rget_ne hs (by decide) (by decide) (by decide) (by decide),
        rollColUpd_ok_rget_ne h2 (by decide) (by decide) (by decide) (by decide)]
      exact v2 hm
    · intro hm
      rw [rollColUpd_ok_rget_ne hs (by decide) (by decide) (by decide) (by decide),
        rollColUpd_ok_rget_ne h2 (by decide) (by decide) (by decide) (by decide)]
      exact v3 hm
    · intro hm
      rw [rollColUpd_ok_rget_ne hs (by decide) (by decide) (by decide) (by decide),
        rollColUpd_ok_rget_ne h2 (by decide) (by decide) (by decide) (by decide)]
      exact v4 hm
  · obtain ⟨cs, hcs, v1, v2, v3, v4⟩ := rollColUpd_ok_vals h2
    have hm1 : ∀ k, rmem r1 k = rmem r k := rollColUpd_ok_rmem h1
    refine ⟨cs, hcs, ?_, ?_, ?_, ?_⟩
    · intro hm
      rw [rollColUpd_ok_rget_ne hs (by decide) (by decide) (by decide) (by decide)]
      exact v1 (by rw [hm1]; exact hm)
    · intro hm
      rw [rollColUpd_ok_rget_ne hs (by decide) (by decide) (by decide) (by decide)]
      exact v2 (by rw [hm1]; exact hm)
    · intro hm
      rw [rollColUpd_ok_rget_ne hs (by decide) (by decide) (by decide) (by decide)]
      exact v3 (by rw [hm1]; exact hm)
    · intro hm
      rw [rollColUpd_ok_rget_ne hs (by decide) (by decide) (by decide) (by decide)]
      exact v4 (by rw [hm1]; exact hm)
  · obtain ⟨cs, hcs, v1, v2, v3, v4⟩ := rollColUpd_ok_vals hs
    have hm1 : ∀ k, rmem r2 k = rmem r k := by
      intro k
      rw [rollColUpd_ok_rmem h2, rollColUpd_ok_rmem h1]
    refine ⟨cs, hcs, ?_, ?_, ?_, ?_⟩
    · intro hm
      exact v1 (by rw [hm1]; exact hm)
    · intro hm
      exact v2 (by rw [hm1]; exact hm)
    · intro hm
      exact v3 (by rw [hm1]; exact hm)
    · intro hm
      exact v4 (by rw [hm1]; exact hm)

theorem ratioUpd_ok_self {key num den : String} {r r' : Row α}
    (hm : rmem r key = true) (hs : ratioUpd key num den r = Except.ok r') :
    ∃ a b, rget r num = some a ∧ rget r den = some b ∧
      rget r' key = some (a / (b + epsilon)) := by
  obtain ⟨v, hv, hcell⟩ := guardedWrite_ok_self hm hs
  rw [bind_ok_iff] at hv; obtain ⟨a, ha, hv⟩ := hv
  rw [bind_ok_iff] at hv; obtain ⟨b, hb, hv⟩ := hv
  rw [pure_eq_ok] at hv
  exact ⟨a, b, need_ok_iff.mp ha, need_ok_iff.mp hb, by
    rw [hcell, Except.ok.inj hv]⟩

theorem ratioUpd_ok_of (key num den : String) {r : Row α}
    (himp : rmem r key = true → rmem r num = true ∧ rmem r den = true) :
    ∃ r', ratioUpd key num den r = Except.ok r' := by
  apply guardedWrite_ok_of
  intro hg
  obtain ⟨hn, hd⟩ := himp hg
  obtain ⟨a, ha, _⟩ := need_ok_of_rmem hn
  obtain ⟨b, hb, _⟩ := need_ok_of_rmem hd
  exact ⟨a / (b + epsilon), by rw [ha, ok_bind, hb, ok_bind, pure_eq_ok]⟩

theorem derivedStage_ok_rmem {r r' : Row α}
    (hs : derivedStage r = Except.ok r') (k : String) :
    rmem r' k = rmem r k := by
  unfold derivedStage at hs
  rw [bind_ok_iff] at hs; obtain ⟨r1, h1, hs⟩ := hs
  rw [bind_ok_iff] at hs; obtain ⟨r2, h2, hs⟩ := hs
  rw [bind_ok_iff] at hs; obtain ⟨r3, h3, hs⟩ := hs
  rw [bind_ok_iff] at hs; obtain ⟨r4, h4, hs⟩ := hs
  rw [bind_ok_iff] at hs; obtain ⟨r5, h5, hs⟩ := hs
  rw [bind_ok_iff] at hs; obtain ⟨r6, h6, hs⟩ := hs
  rw [guardedWrite_ok_rmem hs k, guardedWrite_ok_rmem h6 k,
    guardedWrite_ok_rmem h5 k, guardedWrite_ok_rmem h4 k,
    guardedWrite_ok_rmem h3 k, guardedWrite_ok_rmem h2 k,
    guardedWrite_ok_rmem h1 k]

theorem derivedStage_ok_rget {r r' : Row α}
    (hs : derivedStage r = Except.ok r') {k : String} (hk : k ∉ derivedKeys) :
    rget r' k = rget r k := by
  simp only [derivedKeys, List.mem_cons, List.not_mem_nil, or_false, not_or] at hk
  obtain ⟨n1, n2, n3, n4, n5, n6, n7⟩ := hk
  unfold derivedStage at hs
  rw [bind_ok_iff] at hs; obtain ⟨r1, h1, hs⟩ := hs
  rw [bind_ok_iff] at hs; obtain ⟨r2, h2, hs⟩ := hs
  rw [bind_ok_iff] at hs; obtain ⟨r3, h3, hs⟩ := hs
  rw [bind_ok_iff] at hs; obtain ⟨r4, h4, hs⟩ := hs
  rw [bind_ok_iff] at hs; obtain ⟨r5, h5, hs⟩ := hs
  rw [bind_ok_iff] at hs; obtain ⟨r6, h6, hs⟩ := hs
  rw [guardedWrite_ok_rget_ne hs n7, guardedWrite_ok_rget_ne h6 n6,
    guardedWrite_ok_rget_ne h5 n5, guardedWrite_ok_rget_ne h4 n4,
    guardedWrite_ok_rget_ne h3 n3, guardedWrite_ok_rget_ne h2 n2,
    guardedWrite_ok_rget_ne h1 n1]

theorem derivedStage_ok_of {r : Row α}
    (hcpu : rmem r "usage_cpu_lag_1" = true)
    (hsto : rmem r "usage_storage_lag_1" = true)
    (husr : rmem r "users_active_lag_1" = true)
    (hecon : rmem r "econ_demand_ratio" = true →
      rmem r "economic_index" = true ∧ rmem r "cloud_market_demand" = true) :
    ∃ r', derivedStage r = Except.ok r' := by
  obtain ⟨r1, h1⟩ := ratioUpd_ok_of "cpu_per_user" "usage_cpu_lag_1"
    "users_active_lag_1" (r := r) (fun _ => ⟨hcpu, husr⟩)
  have m1 := guardedWrite_ok_rmem h1
  obtain ⟨r2, h2⟩ := ratioUpd_ok_of "storage_per_user" "usage_storage_lag_1"
    "users_active_lag_1" (r := r1)
    (fun _ => ⟨by rw [m1]; exact hsto, by rw [m1]; exact husr⟩)
  have m2 := guardedWrite_ok_rmem h2
  obtain ⟨r3, h3⟩ := ratioUpd_ok_of "cpu_storage_ratio" "usage_cpu_lag_1"
    "usage_storage_lag_1" (r := r2)
    (fun _ => ⟨by rw [m2, m1]; exact hcpu, by rw [m2, m1]; exact hsto⟩)
  have m3 := guardedWrite_ok_rmem h3
  obtain ⟨r4, h4⟩ := ratioUpd_ok_of "econ_demand_ratio" "economic_index"
    "cloud_market_demand" (r := r3)
    (fun hg => by
      rw [m3, m2, m1] at hg
      obtain ⟨he, hc⟩ := hecon hg
      exact ⟨by rw [m3, m2, m1]; exact he, by rw [m3, m2, m1]; exact hc⟩)
  have m4 := guardedWrite_ok_rmem h4
  have hc5 : rmem r4 "system_stress" = true → ∃ v, (do
      let a ← need r4 "usage_cpu_lag_1"
      let b ← need r4 "usage_storage_lag_1"
      let c ← need r4 "users_active_lag_1"
      pure (a + b + c) : Except Err α) = Except.ok v := by
    intro _
    obtain ⟨a, ha, _⟩ := need_ok_of_rmem (r := r4)
      (by rw [m4, m3, m2, m1]; exact hcpu)
    obtain ⟨b, hb, _⟩ := need_ok_of_rmem (r := r4)
      (by rw [m4, m3, m2, m1]; exact hsto)
    obtain ⟨c, hc, _⟩ := need_ok_of_rmem (r := r4)
      (by rw [m4, m3, m2, m1]; exact husr)
    exact ⟨a + b + c, by rw [ha, ok_bind, hb, ok_bind, hc, ok_bind, pure_eq_ok]⟩
  obtain ⟨r5, h5⟩ := guardedWrite_ok_of hc5
  have m5 := guardedWrite_ok_rmem h5
  have hc6 : rmem r5 "cpu_utilization_ratio" = true →
      ∃ v, (need r5 "usage_cpu_lag_1").map (fun a => a / 100) = Except.ok v := by
    intro _
    obtain ⟨a, ha, _⟩ := need_ok_of_rmem (r := r5)
      (by rw [m5, m4, m3, m2, m1]; exact hcpu)
    exact ⟨a / 100, by rw [ha]; rfl⟩
  obtain ⟨r6, h6⟩ := guardedWrite_ok_of hc6
  have m6 := guardedWrite_ok_rmem h6
  obtain ⟨r7, h7⟩ := ratioUpd_ok_of "storage_efficiency" "usage_storage_lag_1"
    "users_active_lag_1" (r := r6)
    (fun _ => ⟨by rw [m6, m5, m4, m3, m2, m1]; exact hsto,
      by rw [m6, m5, m4, m3, m2, m1]; exact husr⟩)
  exact ⟨r7, by
    unfold derivedStage
    rw [h1, ok_bind, h2, ok_bind, h3, ok_bind, h4, ok_bind, h5, ok_bind,
      h6, ok_bind, h7]⟩

theorem derivedStage_ok_spu_seff {r r' : Row α}
    (h1 : rmem r "storage_per_user" = true)
    (h2 : rmem r "storage_efficiency" = true)
    (hs : derivedStage r = Except.ok r') :
    ∃ a b, rget r' "storage_per_user" = some (a / (b + epsilon)) ∧
      rget r' "storage_efficiency" = some (a / (b + epsilon)) := by
  unfold derivedStage at hs
  rw [bind_ok_iff] at hs; obtain ⟨r1, hh1, hs⟩ := hs
  rw [bind_ok_iff] at hs; obtain ⟨r2, hh2, hs⟩ := hs
  rw [bind_ok_iff] at hs; obtain ⟨r3, hh3, hs⟩ := hs
  rw [bind_ok_iff] at hs; obtain ⟨r4, hh4, hs⟩ := hs
  rw [bind_ok_iff] at hs; obtain ⟨r5, hh5, hs⟩ := hs
  rw [bind_ok_iff] at hs; obtain ⟨r6, hh6, hs⟩ := hs
  have hm2 : rmem r1 "storage_per_user" = true := by
    rw [guardedWrite_ok_rmem hh1]; exact h1
  obtain ⟨a, b, han, hbd, hcell⟩ := ratioUpd_ok_self hm2 hh2
  have hm7 : rmem r6 "storage_efficiency" = true := by
    rw [guardedWrite_ok_rmem hh6, guardedWrite_ok_rmem hh5,
      guardedWrite_ok_rmem hh4, guardedWrite_ok_rmem hh3,
      guardedWrite_ok_rmem hh2, guardedWrite_ok_rmem hh1]
    exact h2
  obtain ⟨a', b', han', hbd', hcell'⟩ := ratioUpd_ok_self hm7 hs
  have hnum : rget r6 "usage_storage_lag_1" = rget r1 "usage_storage_lag_1" := by
    rw [guardedWrite_ok_rget_ne hh6 (by decide),
      guardedWrite_ok_rget_ne hh5 (by decide),
      guardedWrite_ok_rget_ne hh4 (by decide),
      guardedWrite_ok_rget_ne hh3 (by decide),
      guardedWrite_ok_rget_ne hh2 (by decide)]
  have hden : rget r6 "users_active_lag_1" = rget r1 "users_active_lag_1" := by
    rw [guardedWrite_ok_rget_ne hh6 (by decide),
      guardedWrite_ok_rget_ne hh5 (by decide),
      guardedWrite_ok_rget_ne hh4 (by decide),
      guardedWrite_ok_rget_ne hh3 (by decide),
      guardedWrite_ok_rget_ne hh2 (by decide)]
  have ha' : a' = a := by
    rw [hnum, han] at han'
    exact (Option.some.inj han').symm
  have hb' : b' = b := by
    rw [hden, hbd] at hbd'
    exact (Option.some.inj hbd').symm
  have hspu : rget r' "storage_per_user" = rget r2 "storage_per_user" := by
    rw [guardedWrite_ok_rget_ne hs (by decide),
      guardedWrite_ok_rget_ne hh6 (by decide),
      guardedWrite_ok_rget_ne hh5 (by decide),
      guardedWrite_ok_rget_ne hh4 (by decide),
      guardedWrite_ok_rget_ne hh3 (by decide)]
  refine ⟨a, b, ?_, ?_⟩
  · rw [hspu, hcell]
  · rw [hcell', ha', hb']

/-! ## Step and loop lemmas -/

theorem getLast?_some_of_ne_nil {l : List β} (h : l ≠ []) :
    ∃ a, l.getLast? = some a :=
  ⟨l.getLast h, List.getLast?_eq_getLast_of_ne_nil h⟩

theorem mem_of_getLast?_eq {l : List β} {a : β} (h : l.getLast? = some a) :
    a ∈ l := by
  have hm : a ∈ l.getLast? := by rw [h]; rfl
  obtain ⟨hne, ha⟩ := List.mem_getLast?_eq_getLast hm
  rw [ha]
  exact List.getLast_mem hne

theorem reconstruct_ok_cases {ops : Ops α} {fr : Frame α} {t : Row α}
    (hs : reconstruct ops fr = Except.ok t) :
    ∃ last0 t1 t2 t3, fr.getLast? = some last0 ∧
      calendarAdvance ops last0 = Except.ok t1 ∧
      lagStage fr t1 = Except.ok t2 ∧
      rollStage ops fr t2 = Except.ok t3 ∧
      derivedStage t3 = Except.ok t := by
  unfold reconstruct at hs
  cases hl : fr.getLast? with
  | none => rw [hl] at hs; simp at hs
  | some last0 =>
    rw [hl] at hs
    rw [bind_ok_iff] at hs; obtain ⟨t1, h1, hs⟩ := hs
    rw [bind_ok_iff] at hs; obtain ⟨t2, h2, hs⟩ := hs
    rw [bind_ok_iff] at hs; obtain ⟨t3, h3, hs⟩ := hs
    exact ⟨last0, t1, t2, t3, rfl, h1, h2, h3, hs⟩

theorem reconstruct_ok_rmem {ops : Ops α} {fr : Frame α} {t last0 : Row α}
    (hs : reconstruct ops fr = Except.ok t) (hl : fr.getLast? = some last0)
    (k : String) : rmem t k = rmem last0 k := by
  obtain ⟨l0, t1, t2, t3, hl', h1, h2, h3, h4⟩ := reconstruct_ok_cases hs
  rw [hl] at hl'
  cases Option.some.inj hl'
  rw [derivedStage_ok_rmem h4 k, rollStage_ok_rmem h3 k, lagStage_ok_rmem h2 k,
    calendarAdvance_ok_rmem h1 k]

theorem rawCols_rmem_of_RowOK {fr : Frame α} (hok : ∀ r ∈ fr, RowOK r) :
    ∀ c ∈ rawCols, ∀ rr ∈ fr, rmem rr c = true := by
  intro c hc rr hrr
  obtain ⟨o1, o2, o3, _⟩ := hok rr hrr
  simp only [rawCols, List.mem_cons, List.not_mem_nil, or_false] at hc
  rcases hc with rfl | rfl | rfl
  · exact o1
  · exact o2
  · exact o3

theorem reconstruct_ok_of (ops : Ops α) {fr : Frame α} (hne : fr ≠ [])
    (hok : ∀ r ∈ fr, RowOK r) :
    ∃ t last0, fr.getLast? = some last0 ∧ reconstruct ops fr = Except.ok t ∧
      (∀ k, rmem t k = rmem last0 k) := by
  obtain ⟨last0, hl⟩ := getLast?_some_of_ne_nil hne
  obtain ⟨o1, o2, o3, o4, o5, o6, o7, o8⟩ := hok last0 (mem_of_getLast?_eq hl)
  obtain ⟨t1, h1⟩ := calendarAdvance_ok_of ops o7
  have m1 := calendarAdvance_ok_rmem h1
  obtain ⟨t2, h2⟩ := lagStage_ok_of (r := t1) hne (rawCols_rmem_of_RowOK hok)
  have m2 := lagStage_ok_rmem h2
  obtain ⟨t3, h3⟩ := rollStage_ok_of ops (r := t2)
    (rawCols_rmem_of_RowOK hok)
  have m3 := rollStage_ok_rmem h3
  obtain ⟨t4, h4⟩ := derivedStage_ok_of (r := t3)
    (by rw [m3, m2, m1]; exact o4)
    (by rw [m3, m2, m1]; exact o5)
    (by rw [m3, m2, m1]; exact o6)
    (fun hg => by
      rw [m3, m2, m1] at hg
      obtain ⟨he, hc⟩ := o8 hg
      exact ⟨by rw [m3, m2, m1]; exact he, by rw [m3, m2, m1]; exact hc⟩)
  have m4 := derivedStage_ok_rmem h4
  refine ⟨t4, last0, hl, ?_, fun k => by rw [m4, m3, m2, m1]⟩
  unfold reconstruct
  rw [hl]
  show (do
    let t ← calendarAdvance ops last0
    let t ← lagStage fr t
    let t ← rollStage ops fr t
    derivedStage t) = Except.ok t4
  rw [h1, ok_bind, h2, ok_bind, h3, ok_bind, h4]

theorem forecastStep_ok_cases {ops : Ops α} {m : Model α} {tgt : String}
    {fr h' : Frame α} {p : α}
    (hs : forecastStep ops m tgt fr = Except.ok (p, h')) :
    ∃ t, reconstruct ops fr = Except.ok t ∧
      p = m.predict (reindex t m.feature_names_in_) ∧
      h' = fr ++ [rset t tgt p] := by
  unfold forecastStep at hs
  rw [bind_ok_iff] at hs
  obtain ⟨t, ht, hs⟩ := hs
  rw [pure_eq_ok] at hs
  have hp := Except.ok.inj hs
  have h1 : p = m.predict (reindex t m.feature_names_in_) := (congrArg Prod.fst hp).symm
  have h2 : h' = fr ++ [rset t tgt (m.predict (reindex t m.feature_names_in_))] :=
    (congrArg Prod.snd hp).symm
  exact ⟨t, ht, h1, by rw [h2, ← h1]⟩

theorem forecastStep_ok_of {ops : Ops α} (m : Model α) (tgt : String)
    {fr : Frame α} {t : Row α} (ht : reconstruct ops fr = Except.ok t) :
    forecastStep ops m tgt fr = Except.ok
      (m.predict (reindex t m.feature_names_in_),
        fr ++ [rset t tgt (m.predict (reindex t m.feature_names_in_))]) := by
  unfold forecastStep
  rw [ht, ok_bind, pure_eq_ok]

/-- The appended record keeps a well-formed key set when the overwritten
target is one of the two raw metrics. -/
theorem RowOK_rset_target {t : Row α} {tgt : String} (hok : RowOK t)
    (htgt : tgt = "usage_cpu" ∨ tgt = "usage_storage") (p : α) :
    RowOK (rset t tgt p) := by
  have hmem : ∀ k, rmem (rset t tgt p) k = rmem t k := by
    intro k
    rcases htgt with rfl | rfl
    · exact rmem_rset_of_rmem t p k hok.1
    · exact rmem_rset_of_rmem t p k hok.2.1
  unfold RowOK at hok ⊢
  simp only [hmem]
  exact hok

theorem forecastStep_ok_wf (ops : Ops α) (m : Model α) (tgt : String)
    (fr : Frame α) (hne : fr ≠ []) (hok : ∀ r ∈ fr, RowOK r)
    (htgt : tgt = "usage_cpu" ∨ tgt = "usage_storage") :
    ∃ p a, forecastStep ops m tgt fr = Except.ok (p, fr ++ [a]) ∧ RowOK a := by
  obtain ⟨t, last0, hl, hrec, hmem⟩ := reconstruct_ok_of ops hne hok
  have hokt : RowOK t := by
    have h0 := hok last0 (mem_of_getLast?_eq hl)
    unfold RowOK at h0 ⊢
    simp only [hmem]
    exact h0
  exact ⟨_, _, forecastStep_ok_of m tgt hrec,
    RowOK_rset_target hokt htgt _⟩

theorem forecastLoop_zero {ops : Ops α} {m : Model α} {tgt : String}
    {h : Frame α} : forecastLoop ops m tgt 0 h = Except.ok ([], h) := rfl

theorem forecastLoop_succ_ok_iff {ops : Ops α} {m : Model α} {tgt : String}
    {h h' : Frame α} {n : Nat} {out : List α} :
    forecastLoop ops m tgt (n + 1) h = Except.ok (out, h') ↔
      ∃ p h2 ps, forecastStep ops m tgt h = Except.ok (p, h2) ∧
        forecastLoop ops m tgt n h2 = Except.ok (ps, h') ∧ out = p :: ps := by
  constructor
  · intro hs
    unfold forecastLoop at hs
    rw [bind_ok_iff] at hs
    obtain ⟨⟨p, h2⟩, hstep, hs⟩ := hs
    rw [bind_ok_iff] at hs
    obtain ⟨⟨ps, h3⟩, hloop, hs⟩ := hs
    rw [pure_eq_ok] at hs
    have := Except.ok.inj hs
    have hout : out = p :: ps := (congrArg Prod.fst this).symm
    have hh : h' = h3 := (congrArg Prod.snd this).symm
    exact ⟨p, h2, ps, hstep, by rw [hh]; exact hloop, hout⟩
  · rintro ⟨p, h2, ps, hstep, hloop, rfl⟩
    unfold forecastLoop
    rw [hstep, ok_bind, hloop, ok_bind, pure_eq_ok]

/-- Loop growth: a successful run of `n` iterations appends exactly `n`
records (one per iteration) and produces exactly `n` predictions. -/
theorem forecastLoop_ok_growth {ops : Ops α} {m : Model α} {tgt : String} :
    ∀ {n : Nat} {h h' : Frame α} {ps : List α},
      forecastLoop ops m tgt n h = Except.ok (ps, h') →
      ps.length = n ∧ ∃ ext : Frame α, h' = h ++ ext ∧ ext.length = n := by
  intro n
  induction n with
  | zero =>
    intro h h' ps hs
    rw [forecastLoop_zero] at hs
    have := Except.ok.inj hs
    have hps : ps = [] := (congrArg Prod.fst this).symm
    have hh : h' = h := (congrArg Prod.snd this).symm
    exact ⟨by rw [hps]; rfl, [], by rw [hh]; simp, rfl⟩
  | succ n ih =>
    intro h h' ps hs
    rw [forecastLoop_succ_ok_iff] at hs
    obtain ⟨p, h2, ps', hstep, hloop, rfl⟩ := hs
    obtain ⟨t, _, _, hh2⟩ := forecastStep_ok_cases hstep
    obtain ⟨hlen, ext, hext, hextlen⟩ := ih hloop
    refine ⟨by simp [hlen], rset t tgt p :: ext, ?_, by simp [hextlen]⟩
    rw [hext, hh2]
    simp

/-- Loop success under well-formedness, with the invariant carried along. -/
theorem forecastLoop_ok_wf (ops : Ops α) (m : Model α) {tgt : String}
    (htgt : tgt = "usage_cpu" ∨ tgt = "usage_storage") :
    ∀ {n : Nat} {h : Frame α}, h ≠ [] → (∀ r ∈ h, RowOK r) →
      ∃ ps h', forecastLoop ops m tgt n h = Except.ok (ps, h') := by
  intro n
  induction n with
  | zero => exact fun _ _ => ⟨[], _, forecastLoop_zero⟩
  | succ n ih =>
    intro h hne hok
    obtain ⟨p, a, hstep, hoka⟩ := forecastStep_ok_wf ops m tgt h hne hok htgt
    have hne2 : h ++ [a] ≠ [] := by simp
    have hok2 : ∀ r ∈ h ++ [a], RowOK r := by
      intro r hr
      rcases List.mem_append.mp hr with hr | hr
      · exact hok r hr
      · rw [List.mem_singleton.mp hr]
        exact hoka
    obtain ⟨ps, h', hloop⟩ := ih hne2 hok2
    exact ⟨p :: ps, h', forecastLoop_succ_ok_iff.mpr ⟨p, h ++ [a], ps, hstep, hloop, rfl⟩⟩

/-! ## Single-shot completer lemmas -/

theorem fillIfAbsent_rget_ne {f : Row α} {key k : String} {v : α}
    (hne : k ≠ key) : rget (fillIfAbsent f key v) k = rget f k := by
  unfold fillIfAbsent
  split
  · rfl
  · exact rget_rset_ne f v hne

theorem fillIfAbsent_gget_ne {f : Row α} {key k : String} {v d : α}
    (hne : k ≠ key) : gget (fillIfAbsent f key v) k d = gget f k d := by
  unfold gget
  rw [fillIfAbsent_rget_ne hne]

theorem fillIfAbsent_rmem_ne {f : Row α} {key k : String} {v : α}
    (hne : k ≠ key) : rmem (fillIfAbsent f key v) k = rmem f k := by
  unfold rmem
  rw [fillIfAbsent_rget_ne hne]

theorem fillIfAbsent_absent_rget {f : Row α} {key : String} {v : α}
    (h : rmem f key = false) : rget (fillIfAbsent f key v) key = some v := by
  unfold fillIfAbsent
  rw [if_neg (by rw [h]; simp)]
  exact rget_rset_self f key v

theorem fillIfAbsent_rget_some {f : Row α} {k key : String} {v w : α}
    (h : rget f k = some w) : rget (fillIfAbsent f key v) k = some w := by
  unfold fillIfAbsent
  by_cases hk : k = key
  · subst hk
    have hm : rmem f k = true := by unfold rmem; rw [h]; rfl
    rw [if_pos hm]
    exact h
  · split
    · exact h
    · rw [rget_rset_ne f v hk]; exact h

theorem derivedFill_rget_some {f : Row α} {k : String} {w : α}
    (h : rget f k = some w) : rget (derivedFill f) k = some w := by
  simp only [derivedFill]
  exact fillIfAbsent_rget_some (fillIfAbsent_rget_some (fillIfAbsent_rget_some
    (fillIfAbsent_rget_some (fillIfAbsent_rget_some (fillIfAbsent_rget_some
    (fillIfAbsent_rget_some h))))))

theorem derivedFill_rget_not_derived {f : Row α} {k : String}
    (hk : k ∉ derivedKeys) : rget (derivedFill f) k = rget f k := by
  simp only [derivedKeys, List.mem_cons, List.not_mem_nil, or_false, not_or] at hk
  obtain ⟨n1, n2, n3, n4, n5, n6, n7⟩ := hk
  simp only [derivedFill]
  rw [fillIfAbsent_rget_ne n7, fillIfAbsent_rget_ne n6, fillIfAbsent_rget_ne n5,
    fillIfAbsent_rget_ne n4, fillIfAbsent_rget_ne n3, fillIfAbsent_rget_ne n2,
    fillIfAbsent_rget_ne n1]

theorem derivedFill_spu {f : Row α} (h : rmem f "storage_per_user" = false) :
    rget (derivedFill f) "storage_per_user" =
      some (gget f "usage_storage_lag_1" 0 /
        (gget f "users_active_lag_1" 1 + epsilon)) := by
  simp only [derivedFill]
  rw [fillIfAbsent_rget_ne (by decide), fillIfAbsent_rget_ne (by decide),
    fillIfAbsent_rget_ne (by decide), fillIfAbsent_rget_ne (by decide),
    fillIfAbsent_rget_ne (by decide),
    fillIfAbsent_absent_rget (by rw [fillIfAbsent_rmem_ne (by decide)]; exact h),
    fillIfAbsent_gget_ne (by decide), fillIfAbsent_gget_ne (by decide)]

theorem derivedFill_seff {f : Row α} (h : rmem f "storage_efficiency" = false) :
    rget (derivedFill f) "storage_efficiency" =
      some (gget f "usage_storage_lag_1" 0 /
        (gget f "users_active_lag_1" 1 + epsilon)) := by
  simp only [derivedFill]
  rw [fillIfAbsent_absent_rget (by
    rw [fillIfAbsent_rmem_ne (by decide), fillIfAbsent_rmem_ne (by decide),
      fillIfAbsent_rmem_ne (by decide), fillIfAbsent_rmem_ne (by decide),
      fillIfAbsent_rmem_ne (by decide), fillIfAbsent_rmem_ne (by decide)]
    exact h)]
  rw [fillIfAbsent_gget_ne (by decide), fillIfAbsent_gget_ne (by decide),
    fillIfAbsent_gget_ne (by decide), fillIfAbsent_gget_ne (by decide),
    fillIfAbsent_gget_ne (by decide), fillIfAbsent_gget_ne (by decide),
    fillIfAbsent_gget_ne (by decide), fillIfAbsent_gget_ne (by decide),
    fillIfAbsent_gget_ne (by decide), fillIfAbsent_gget_ne (by decide),
    fillIfAbsent_gget_ne (by decide), fillIfAbsent_gget_ne (by decide)]

theorem derivedFill_cpu {f : Row α} (h : rmem f "cpu_per_user" = false) :
    rget (derivedFill f) "cpu_per_user" =
      some (gget f "usage_cpu_lag_1" 0 /
        (gget f "users_active_lag_1" 1 + epsilon)) := by
  simp only [derivedFill]
  rw [fillIfAbsent_rget_ne (by decide), fillIfAbsent_rget_ne (by decide),
    fillIfAbsent_rget_ne (by decide), fillIfAbsent_rget_ne (by decide),
    fillIfAbsent_rget_ne (by decide), fillIfAbsent_rget_ne (by decide),
    fillIfAbsent_absent_rget h]

theorem derivedFill_csr {f : Row α} (h : rmem f "cpu_storage_ratio" = false) :
    rget (derivedFill f) "cpu_storage_ratio" =
      some (gget f "usage_cpu_lag_1" 0 /
        (gget f "usage_storage_lag_1" 1 + epsilon)) := by
  simp only [derivedFill]
  rw [fillIfAbsent_rget_ne (by decide), fillIfAbsent_rget_ne (by decide),
    fillIfAbsent_rget_ne (by decide), fillIfAbsent_rget_ne (by decide),
    fillIfAbsent_absent_rget (by
      rw [fillIfAbsent_rmem_ne (by decide), fillIfAbsent_rmem_ne (by decide)]
      exact h),
    fillIfAbsent_gget_ne (by decide), fillIfAbsent_gget_ne (by decide),
    fillIfAbsent_gget_ne (by decide), fillIfAbsent_gget_ne (by decide)]

theorem derivedFill_edr {f : Row α} (h : rmem f "econ_demand_ratio" = false) :
    rget (derivedFill f) "econ_demand_ratio" =
      some (gget f "economic_index" 0 /
        (gget f "cloud_market_demand" 1 + epsilon)) := by
  simp only [derivedFill]
  rw [fillIfAbsent_rget_ne (by decide), fillIfAbsent_rget_ne (by decide),
    fillIfAbsent_rget_ne (by decide),
    fillIfAbsent_absent_rget (by
      rw [fillIfAbsent_rmem_ne (by decide), fillIfAbsent_rmem_ne (by decide),
        fillIfAbsent_rmem_ne (by decide)]
      exact h),
    fillIfAbsent_gget_ne (by decide), fillIfAbsent_gget_ne (by decide),
    fillIfAbsent_gget_ne (by decide), fillIfAbsent_gget_ne (by decide),
    fillIfAbsent_gget_ne (by decide), fillIfAbsent_gget_ne (by decide)]

theorem derivedFill_stress {f : Row α} (h : rmem f "system_stress" = false) :
    rget (derivedFill f) "system_stress" =
      some (gget f "usage_cpu_lag_1" 0 + gget f "usage_storage_lag_1" 0 +
        gget f "users_active_lag_1" 0) := by
  simp only [derivedFill]
  rw [fillIfAbsent_rget_ne (by decide), fillIfAbsent_rget_ne (by decide),
    fillIfAbsent_absent_rget (by
      rw [fillIfAbsent_rmem_ne (by decide), fillIfAbsent_rmem_ne (by decide),
        fillIfAbsent_rmem_ne (by decide), fillIfAbsent_rmem_ne (by decide)]
      exact h)]
  rw [fillIfAbsent_gget_ne (by decide), fillIfAbsent_gget_ne (by decide),
    fillIfAbsent_gget_ne (by decide), fillIfAbsent_gget_ne (by decide),
    fillIfAbsent_gget_ne (by decide), fillIfAbsent_gget_ne (by decide),
    fillIfAbsent_gget_ne (by decide), fillIfAbsent_gget_ne (by decide),
    fillIfAbsent_gget_ne (by decide), fillIfAbsent_gget_ne (by decide),
    fillIfAbsent_gget_ne (by decide), fillIfAbsent_gget_ne (by decide)]

theorem derivedFill_cur {f : Row α}
    (h : rmem f "cpu_utilization_ratio" = false) :
    rget (derivedFill f) "cpu_utilization_ratio" =
      some (gget f "usage_cpu_lag_1" 0 / 100) := by
  simp only [derivedFill]
  rw [fillIfAbsent_rget_ne (by decide),
    fillIfAbsent_absent_rget (by
      rw [fillIfAbsent_rmem_ne (by decide), fillIfAbsent_rmem_ne (by decide),
        fillIfAbsent_rmem_ne (by decide), fillIfAbsent_rmem_ne (by decide),
        fillIfAbsent_rmem_ne (by decide)]
      exact h),
    fillIfAbsent_gget_ne (by decide), fillIfAbsent_gget_ne (by decide),
    fillIfAbsent_gget_ne (by decide), fillIfAbsent_gget_ne (by decide),
    fillIfAbsent_gget_ne (by decide)]

theorem lag1Fill_ok_rget {recent : Frame α} {f f' : Row α}
    (hs : lag1Fill recent f = Except.ok f') {k : String}
    (n1 : k ≠ "usage_cpu_lag_1") (n2 : k ≠ "usage_storage_lag_1")
    (n3 : k ≠ "users_active_lag_1") : rget f' k = rget f k := by
  unfold lag1Fill at hs
  by_cases hg : 1 ≤ recent.length
  · rw [if_pos hg] at hs
    rw [bind_ok_iff] at hs; obtain ⟨a, _, hs⟩ := hs
    rw [bind_ok_iff] at hs; obtain ⟨b, _, hs⟩ := hs
    rw [bind_ok_iff] at hs; obtain ⟨c, _, hs⟩ := hs
    rw [pure_eq_ok] at hs
    cases Except.ok.inj hs
    rw [rget_rset_ne _ _ n3, rget_rset_ne _ _ n2, rget_rset_ne _ _ n1]
  · rw [if_neg hg, pure_eq_ok] at hs
    cases Except.ok.inj hs
    rfl

theorem lag3Fill_ok_rget {recent : Frame α} {f f' : Row α}
    (hs : lag3Fill recent f = Except.ok f') {k : String}
    (n1 : k ≠ "usage_cpu_lag_3") (n2 : k ≠ "usage_storage_lag_3")
    (n3 : k ≠ "users_active_lag_3") : rget f' k = rget f k := by
  unfold lag3Fill at hs
  by_cases hg : 3 ≤ recent.length
  · rw [if_pos hg] at hs
    rw [bind_ok_iff] at hs; obtain ⟨a, _, hs⟩ := hs
    rw [bind_ok_iff] at hs; obtain ⟨b, _, hs⟩ := hs
    rw [bind_ok_iff] at hs; obtain ⟨c, _, hs⟩ := hs
    rw [pure_eq_ok] at hs
    cases Except.ok.inj hs
    rw [rget_rset_ne _ _ n3, rget_rset_ne _ _ n2, rget_rset_ne _ _ n1]
  · rw [if_neg hg, pure_eq_ok] at hs
    cases Except.ok.inj hs
    rfl

theorem lag7Fill_ok_rget {recent : Frame α} {f f' : Row α}
    (hs : lag7Fill recent f = Except.ok f') {k : String}
    (n1 : k ≠ "usage_cpu_lag_7") (n2 : k ≠ "usage_storage_lag_7")
    (n3 : k ≠ "users_active_lag_7") : rget f' k = rget f k := by
  unfold lag7Fill at hs
  by_cases hg : 7 ≤ recent.length
  · rw [if_pos hg] at hs
    rw [bind_ok_iff] at hs; obtain ⟨a, _, hs⟩ := hs
    rw [bind_ok_iff] at hs; obtain ⟨b, _, hs⟩ := hs
    rw [bind_ok_iff] at hs; obtain ⟨c, _, hs⟩ := hs
    rw [pure_eq_ok] at hs
    cases Except.ok.inj hs
    rw [rget_rset_ne _ _ n3, rget_rset_ne _ _ n2, rget_rset_ne _ _ n1]
  · rw [if_neg hg, pure_eq_ok] at hs
    cases Except.ok.inj hs
    rfl

theorem rollFill_ok_rget {ops : Ops α} {recent : Frame α} {col : String}
    {f f' : Row α} (hs : rollFill ops recent col f = Except.ok f') {k : String}
    (n1 : k ≠ col ++ "_rolling_mean_3") (n2 : k ≠ col ++ "_rolling_std_3")
    (n3 : k ≠ col ++ "_rolling_mean_7") (n4 : k ≠ col ++ "_rolling_std_7") :
    rget f' k = rget f k := by
  unfold rollFill at hs
  rw [bind_ok_iff] at hs; obtain ⟨cs, _, hs⟩ := hs
  rw [pure_eq_ok] at hs
  cases Except.ok.inj hs
  rw [rget_rset_ne _ _ n4, rget_rset_ne _ _ n3, rget_rset_ne _ _ n2,
    rget_rset_ne _ _ n1]

theorem rollFill_ok_cases {ops : Ops α} {recent : Frame α} {col : String}
    {f f' : Row α} (hs : rollFill ops recent col f = Except.ok f') :
    ∃ cs, colVals recent col = Except.ok cs ∧
      f' = rset (rset (rset (rset f
        (col ++ "_rolling_mean_3") (listMean (tailN 3 cs)))
        (col ++ "_rolling_std_3") (pandasStd ops (tailN 3 cs)))
        (col ++ "_rolling_mean_7") (listMean (tailN 7 cs)))
        (col ++ "_rolling_std_7") (pandasStd ops (tailN 7 cs)) := by
  unfold rollFill at hs
  rw [bind_ok_iff] at hs
  obtain ⟨cs, hcs, hs⟩ := hs
  rw [pure_eq_ok] at hs
  exact ⟨cs, hcs, (Except.ok.inj hs).symm⟩

theorem rollFill_ok_of (ops : Ops α) (recent : Frame α) (col : String)
    {f : Row α} (hm : ∀ rr ∈ recent, rmem rr col = true) :
    ∃ f', rollFill ops recent col f = Except.ok f' := by
  obtain ⟨cs, hcs⟩ := colVals_ok_of_mem hm
  refine ⟨rset (rset (rset (rset f
      (col ++ "_rolling_mean_3") (listMean (tailN 3 cs)))
      (col ++ "_rolling_std_3") (pandasStd ops (tailN 3 cs)))
      (col ++ "_rolling_mean_7") (listMean (tailN 7 cs)))
      (col ++ "_rolling_std_7") (pandasStd ops (tailN 7 cs)), ?_⟩
  unfold rollFill
  rw [hcs, ok_bind, pure_eq_ok]

theorem rollFill_ok_m3 {ops : Ops α} {recent : Frame α} {col : String}
    {f f' : Row α} (hs : rollFill ops recent col f = Except.ok f') :
    ∃ cs, colVals recent col = Except.ok cs ∧
      rget f' (col ++ "_rolling_mean_3") = some (listMean (tailN 3 cs)) := by
  obtain ⟨cs, hcs, rfl⟩ := rollFill_ok_cases hs
  refine ⟨cs, hcs, ?_⟩
  rw [rget_rset_ne _ _ (string_append_ne col (by decide)),
    rget_rset_ne _ _ (string_append_ne col (by decide)),
    rget_rset_ne _ _ (string_append_ne col (by decide)),
    rget_rset_self]

theorem historyFill_ok_rget {ops : Ops α} {df : Frame α} {f f' : Row α}
    (hs : historyFill ops df f = Except.ok f') {k : String}
    (hlag : k ∉ lagKeys) (hroll : k ∉ rollKeys) : rget f' k = rget f k := by
  simp only [lagKeys, List.mem_cons, List.not_mem_nil, or_false, not_or] at hlag
  obtain ⟨n1, n2, n3, n4, n5, n6, n7, n8, n9⟩ := hlag
  simp only [rollKeys, List.mem_cons, List.not_mem_nil, or_false, not_or] at hroll
  obtain ⟨m1, m2, m3, m4, m5, m6, m7, m8, m9, m10, m11, m12⟩ := hroll
  unfold historyFill at hs
  rw [bind_ok_iff] at hs; obtain ⟨f1, h1, hs⟩ := hs
  rw [bind_ok_iff] at hs; obtain ⟨f2, h2, hs⟩ := hs
  rw [bind_ok_iff] at hs; obtain ⟨f3, h3, hs⟩ := hs
  unfold historyLagFill at h1
  rw [bind_ok_iff] at h1; obtain ⟨g1, hg1, h1⟩ := h1
  rw [bind_ok_iff] at h1; obtain ⟨g2, hg2, h1⟩ := h1
  rw [rollFill_ok_rget hs m9 m10 m11 m12, rollFill_ok_rget h3 m5 m6 m7 m8,
    rollFill_ok_rget h2 m1 m2 m3 m4, lag7Fill_ok_rget h1 n7 n8 n9,
    lag3Fill_ok_rget hg2 n4 n5 n6, lag1Fill_ok_rget hg1 n1 n2 n3]

theorem prepare_ok_cases {ops : Ops α} {input df out}
    (hs : prepare_single_prediction_features ops input df = Except.ok out) :
    (rmem input "usage_cpu_lag_1" = true ∧ out = derivedFill input) ∨
    (rmem input "usage_cpu_lag_1" = false ∧
      ∃ f, historyFill ops df input = Except.ok f ∧ out = derivedFill f) := by
  unfold prepare_single_prediction_features at hs
  by_cases hg : rmem input "usage_cpu_lag_1" = true
  · rw [if_pos hg] at hs
    rw [pure_eq_ok] at hs
    rw [map_ok_iff] at hs
    obtain ⟨f, hf, hout⟩ := hs
    cases Except.ok.inj hf
    exact Or.inl ⟨hg, hout.symm⟩
  · rw [if_neg hg] at hs
    rw [map_ok_iff] at hs
    obtain ⟨f, hf, hout⟩ := hs
    simp at hg
    exact Or.inr ⟨hg, f, hf, hout.symm⟩

theorem reconstruct_ok_rget {ops : Ops α} {fr : Frame α} {t last0 : Row α}
    (hs : reconstruct ops fr = Except.ok t) (hl : fr.getLast? = some last0)
    {k : String} (h1 : k ∉ calKeys) (h2 : k ∉ lagKeys) (h3 : k ∉ rollKeys)
    (h4 : k ∉ derivedKeys) : rget t k = rget last0 k := by
  obtain ⟨l0, t1, t2, t3, hl', hc, hlg, hr, hd⟩ := reconstruct_ok_cases hs
  rw [hl] at hl'
  cases Option.some.inj hl'
  simp only [calKeys, List.mem_cons, List.not_mem_nil, or_false, not_or] at h1
  obtain ⟨c1, c2, c3⟩ := h1
  rw [derivedStage_ok_rget hd h4, rollStage_ok_rget hr h3,
    lagStage_ok_rget hlg h2, calendarAdvance_ok_rget hc c1 c2 c3]

theorem tailN_ne_nil {l : List β} (h : l ≠ []) {n : Nat} (hn : 1 ≤ n) :
    tailN n l ≠ [] := by
  have hlen : 1 ≤ l.length := List.length_pos.mpr h
  have ht := tailN_length n l
  intro hcon
  rw [hcon] at ht
  simp at ht
  omega

theorem tailN_subset (n : Nat) (l : List β) : ∀ x ∈ tailN n l, x ∈ l := by
  intro x hx
  exact List.drop_subset _ l hx

/-! ## Claim theorems -/

/-- Claim C1, counterexample (the claim is false on the code): with a
predictor requiring only the unknown feature name `"bogus_feature"` — which
no reconstruction stage produces and which is absent from the template
records — both recursive forecasts *succeed* (no reconstruction-gap error is
raised), and the prediction value 1 proves that the predictor was handed
exactly the vector `[none]`, i.e. an undefined (NaN) value was submitted:
`mBogus.predict` returns 1 only on `[none]`. -/
theorem claim_C1_counterexample :
    recursive_forecast_cpu opsQ pdf mBogus 1 = Except.ok [1] ∧
    recursive_forecast_storage opsQ pdf mBogus 1 = Except.ok [1] ∧
    (∀ cells, mBogus.predict cells = 1 → cells = [none]) := by
  refine ⟨by decide, by decide, ?_⟩
  intro cells hc
  by_cases h : cells = [none]
  · exact h
  · exfalso
    unfold mBogus at hc
    simp only [h, if_false] at hc
    exact absurd hc (by decide)

/-- Claim C1, amended: the recursive loop does not fail on a reconstruction
gap.  For any feature name `c` required by the predictor but absent from the
template record (and produced by no stage — stages only overwrite keys that
are already present), the step succeeds; `reindex` fills the gap with the
undefined marker (`none`, modelling NaN), and the row containing that
undefined entry is submitted to the predictor. -/
theorem claim_C1_amended {α : Type} [Field α] [DecidableEq α] (ops : Ops α)
    (m : Model α) (tgt c : String) (fr h' : Frame α) (last0 : Row α) (p : α)
    (hl : fr.getLast? = some last0) (hc : rmem last0 c = false)
    (hs : forecastStep ops m tgt fr = Except.ok (p, h')) :
    ∃ t, reconstruct ops fr = Except.ok t ∧ rget t c = none ∧
      p = m.predict (reindex t m.feature_names_in_) ∧
      h' = fr ++ [rset t tgt p] ∧
      ∀ i : Nat, m.feature_names_in_[i]? = some c →
        (reindex t m.feature_names_in_)[i]? = some none := by
  obtain ⟨t, ht, hp, hh⟩ := forecastStep_ok_cases hs
  have hmem : rmem t c = false := by
    rw [reconstruct_ok_rmem ht hl c]
    exact hc
  have hnone : rget t c = none := rget_none_of_not_rmem hmem
  refine ⟨t, ht, hnone, hp, hh, ?_⟩
  intro i hi
  unfold reindex
  rw [List.getElem?_map, hi]
  simp [hnone]

/-- Claim C1, witness for the amended theorem: on the concrete 7-row dataset
and the `"bogus_feature"` predictor, the step succeeds and submits `none` at
the bogus feature's position. -/
theorem claim_C1_amended_witness :
    ∃ p h' t, forecastStep opsQ mBogus "usage_cpu" pdf = Except.ok (p, h') ∧
      reconstruct opsQ pdf = Except.ok t ∧ rget t "bogus_feature" = none ∧
      (reindex t mBogus.feature_names_in_)[0]? = some none := by
  obtain ⟨p, a, hstep, _⟩ := forecastStep_ok_wf opsQ mBogus "usage_cpu" pdf
    (by decide) (by decide) (Or.inl rfl)
  obtain ⟨t, ht, hnone, _, _, hvec⟩ := claim_C1_amended opsQ mBogus "usage_cpu"
    "bogus_feature" pdf (pdf ++ [a]) (pRow 7) p (by decide) (by decide) hstep
  exact ⟨p, pdf ++ [a], t, hstep, ht, hnone, hvec 0 (by decide)⟩

/-- Claim C2, counterexample (the claim is false on the code): on a 3-row
dataset (< 7 rows), seeding does not fail — `df.tail(7)` simply yields all 3
rows — and the forecast call succeeds, returning the lag-1 echo 3 computed
from the partial buffer.  So a partial buffer *is* created and used. -/
theorem claim_C2_counterexample :
    pdf3.length = 3 ∧ tailN 7 pdf3 = pdf3 ∧
    recursive_forecast_cpu opsQ pdf3 mId 1 = Except.ok [3] := by
  refine ⟨by decide, by decide, by decide⟩

/-- Claim C2, amended: constructing the History Buffer never fails.  With
fewer than 7 rows the buffer is seeded with *all* rows (`min 7 |df|` of
them), and forecasting proceeds on that partial buffer for any horizon,
provided the rows are well-formed and the dataset is nonempty. -/
theorem claim_C2_amended {α : Type} [Field α] [DecidableEq α] (ops : Ops α)
    (m : Model α) (df : Frame α) (n_days : Nat) (hne : df ≠ [])
    (hok : ∀ r ∈ df, RowOK r) (hshort : df.length < 7) :
    tailN 7 df = df ∧
    (∃ ps, recursive_forecast_cpu ops df m n_days = Except.ok ps ∧
      ps.length = n_days) ∧
    (∃ ps, recursive_forecast_storage ops df m n_days = Except.ok ps ∧
      ps.length = n_days) := by
  have hseed : tailN 7 df = df := tailN_eq_self (by omega)
  have hokseed : ∀ r ∈ tailN 7 df, RowOK r := by
    intro r hr
    exact hok r (tailN_subset 7 df r hr)
  have hneseed : tailN 7 df ≠ [] := tailN_ne_nil hne (by omega)
  refine ⟨hseed, ?_, ?_⟩
  · obtain ⟨ps, h', hloop⟩ := forecastLoop_ok_wf ops m
      (Or.inl rfl) (n := n_days) hneseed hokseed
    obtain ⟨hlen, _⟩ := forecastLoop_ok_growth hloop
    exact ⟨ps, by unfold recursive_forecast_cpu; rw [hloop]; rfl, hlen⟩
  · obtain ⟨ps, h', hloop⟩ := forecastLoop_ok_wf ops m
      (Or.inr rfl) (n := n_days) hneseed hokseed
    obtain ⟨hlen, _⟩ := forecastLoop_ok_growth hloop
    exact ⟨ps, by unfold recursive_forecast_storage; rw [hloop]; rfl, hlen⟩

/-- Claim C2, witness for the amended theorem at the concrete 3-row
dataset. -/
theorem claim_C2_amended_witness :
    tailN 7 pdf3 = pdf3 ∧
    (∃ ps, recursive_forecast_cpu opsQ pdf3 mId 4 = Except.ok ps ∧
      ps.length = 4) ∧
    (∃ ps, recursive_forecast_storage opsQ pdf3 mId 4 = Except.ok ps ∧
      ps.length = 4) :=
  claim_C2_amended opsQ mId pdf3 4 (by decide) (by decide) (by decide)

/-- Claim C5 (confirmed): for a dataset with at least 7 rows, after every
successful run of `k` iterations of the recursive loop the buffer has length
`7 + k`, its first 7 records are exactly the seed, exactly `k` predictions
were produced, and each single step grows the buffer by exactly one appended
record (never shrinking or reordering — the old buffer is a prefix). -/
theorem claim_C5 {α : Type} [Field α] [DecidableEq α] (ops : Ops α)
    (m : Model α) (tgt : String) (df : Frame α) (k : Nat) {ps : List α}
    {h' : Frame α} (h7 : 7 ≤ df.length)
    (hs : forecastLoop ops m tgt k (tailN 7 df) = Except.ok (ps, h')) :
    h'.length = 7 + k ∧ h'.take 7 = tailN 7 df ∧ ps.length = k ∧
    ∀ (fr fr2 : Frame α) (p : α),
      forecastStep ops m tgt fr = Except.ok (p, fr2) → ∃ a, fr2 = fr ++ [a] := by
  have hseed : (tailN 7 df).length = 7 := by rw [tailN_length]; omega
  obtain ⟨hlen, ext, hext, hextlen⟩ := forecastLoop_ok_growth hs
  refine ⟨?_, ?_, hlen, ?_⟩
  · rw [hext]
    simp [hseed, hextlen]
  · have htake := List.take_left (tailN 7 df) ext
    rw [hseed] at htake
    rw [hext]
    exact htake
  · intro fr fr2 p hstep
    obtain ⟨t, _, _, h2⟩ := forecastStep_ok_cases hstep
    exact ⟨_, h2⟩

/-- Claim C5, witness: a concrete 2-iteration CPU run on the 7-row dataset. -/
theorem claim_C5_witness :
    ∃ ps h', forecastLoop opsQ mId "usage_cpu" 2 (tailN 7 pdf) =
        Except.ok (ps, h') ∧
      h'.length = 7 + 2 ∧ h'.take 7 = tailN 7 pdf ∧ ps.length = 2 := by
  obtain ⟨ps, h', hloop⟩ := forecastLoop_ok_wf opsQ mId
    (Or.inl rfl) (n := 2) (h := tailN 7 pdf) (by decide) (by decide)
  obtain ⟨hl1, hl2, hl3, _⟩ := claim_C5 opsQ mId "usage_cpu" pdf 2
    (by decide) hloop
  exact ⟨ps, h', hloop, hl1, hl2, hl3⟩

/-- Claim C6 (confirmed): for every well-formed nonempty dataset, predictor
and horizon `n_days ≥ 0`, both recursive forecasts succeed with exactly
`n_days` predictions; for `n_days = 0` the result is the empty sequence for
*every* dataset, the call does not fail, and the loop performs no buffer
mutation beyond the initial `df.tail(7)` seed copy (the buffer returned is
the seed itself). -/
theorem claim_C6 {α : Type} [Field α] [DecidableEq α] (ops : Ops α)
    (m : Model α) :
    (∀ (df : Frame α) (n_days : Nat), df ≠ [] → (∀ r ∈ df, RowOK r) →
      (∃ ps, recursive_forecast_cpu ops df m n_days = Except.ok ps ∧
        ps.length = n_days) ∧
      (∃ ps, recursive_forecast_storage ops df m n_days = Except.ok ps ∧
        ps.length = n_days)) ∧
    (∀ df : Frame α,
      recursive_forecast_cpu ops df m 0 = Except.ok [] ∧
      recursive_forecast_storage ops df m 0 = Except.ok [] ∧
      forecastLoop ops m "usage_cpu" 0 (tailN 7 df) =
        Except.ok ([], tailN 7 df) ∧
      forecastLoop ops m "usage_storage" 0 (tailN 7 df) =
        Except.ok ([], tailN 7 df)) := by
  constructor
  · intro df n_days hne hok
    have hokseed : ∀ r ∈ tailN 7 df, RowOK r := by
      intro r hr
      exact hok r (tailN_subset 7 df r hr)
    have hneseed : tailN 7 df ≠ [] := tailN_ne_nil hne (by omega)
    constructor
    · obtain ⟨ps, h', hloop⟩ := forecastLoop_ok_wf ops m
        (Or.inl rfl) (n := n_days) hneseed hokseed
      obtain ⟨hlen, _⟩ := forecastLoop_ok_growth hloop
      exact ⟨ps, by unfold recursive_forecast_cpu; rw [hloop]; rfl, hlen⟩
    · obtain ⟨ps, h', hloop⟩ := forecastLoop_ok_wf ops m
        (Or.inr rfl) (n := n_days) hneseed hokseed
      obtain ⟨hlen, _⟩ := forecastLoop_ok_growth hloop
      exact ⟨ps, by unfold recursive_forecast_storage; rw [hloop]; rfl, hlen⟩
  · intro df
    exact ⟨rfl, rfl, rfl, rfl⟩

/-- Claim C6, witness at a concrete dataset and horizon. -/
theorem claim_C6_witness :
    (∃ ps, recursive_forecast_cpu opsQ pdf mId 5 = Except.ok ps ∧
      ps.length = 5) ∧
    recursive_forecast_cpu opsQ pdf3 mId 0 = Except.ok [] :=
  ⟨((claim_C6 opsQ mId).1 pdf 5 (by decide) (by decide)).1,
    ((claim_C6 opsQ mId).2 pdf3).1⟩

/-- In a storage-target run, every appended record keeps `usage_cpu` equal to
the buffer's last `usage_cpu` at entry, and its `usage_cpu_lag_1` cell equals
the same frozen value (the stages never write `usage_cpu`, and stage 6 only
overwrites `usage_storage`). -/
theorem storageLoop_cpu_frozen {ops : Ops α} {m : Model α} :
    ∀ {n : Nat} {fr h' : Frame α} {ps : List α} {last0 : Row α} {c : α},
      fr.getLast? = some last0 → rget last0 "usage_cpu" = some c →
      rmem last0 "usage_cpu_lag_1" = true →
      forecastLoop ops m "usage_storage" n fr = Except.ok (ps, h') →
      ∀ a ∈ h'.drop fr.length,
        rget a "usage_cpu" = some c ∧ rget a "usage_cpu_lag_1" = some c := by
  intro n
  induction n with
  | zero =>
    intro fr h' ps last0 c hl hc hm hs
    rw [forecastLoop_zero] at hs
    have hh : h' = fr := (congrArg Prod.snd (Except.ok.inj hs)).symm
    intro a ha
    rw [hh, List.drop_length] at ha
    simp at ha
  | succ n ih =>
    intro fr h' ps last0 c hl hc hm hs
    rw [forecastLoop_succ_ok_iff] at hs
    obtain ⟨p, h2, ps', hstep, hloop, rfl⟩ := hs
    obtain ⟨t, hrec, hp, hh2⟩ := forecastStep_ok_cases hstep
    have htcpu : rget t "usage_cpu" = some c := by
      rw [reconstruct_ok_rget hrec hl (by decide) (by decide) (by decide)
        (by decide)]
      exact hc
    have htlag : rget t "usage_cpu_lag_1" = some c := by
      obtain ⟨l0, t1, t2, t3, hl', hcad, hlg, hro, hde⟩ := reconstruct_ok_cases hrec
      rw [hl] at hl'
      cases Option.some.inj hl'
      have hm1 : rmem t1 "usage_cpu_lag_1" = true := by
        rw [calendarAdvance_ok_rmem hcad]
        exact hm
      obtain ⟨v, hcol, hcell⟩ := lagStage_ok_cpu_lag1 hm1 hlg
      have hv : v = c := by
        have hlv := colIloc_one_getLast hcol hl
        rw [hc] at hlv
        exact (Option.some.inj hlv).symm
      rw [derivedStage_ok_rget hde (by decide), rollStage_ok_rget hro (by decide),
        hcell, hv]
    have hacpu : rget (rset t "usage_storage" p) "usage_cpu" = some c := by
      rw [rget_rset_ne t p (by decide)]
      exact htcpu
    have halag : rget (rset t "usage_storage" p) "usage_cpu_lag_1" = some c := by
      rw [rget_rset_ne t p (by decide)]
      exact htlag
    have hamem : rmem (rset t "usage_storage" p) "usage_cpu_lag_1" = true := by
      unfold rmem
      rw [halag]
      rfl
    subst hh2
    have hl2 : (fr ++ [rset t "usage_storage" p]).getLast? =
        some (rset t "usage_storage" p) := by simp
    have hIH := ih hl2 hacpu hamem hloop
    obtain ⟨_, ext, hext, _⟩ := forecastLoop_ok_growth hloop
    intro a ha
    rw [hext, List.append_assoc, List.drop_left] at ha
    rcases List.mem_append.mp ha with ha | ha
    · rw [List.mem_singleton.mp ha]
      exact ⟨hacpu, halag⟩
    · apply hIH
      rw [hext, List.drop_left]
      exact ha

/-- Claim C7 (confirmed): in a storage-target run of length ≥ 2, every
appended record (hence the `usage_cpu_lag_1` value used at every iteration
after the first) carries the same `usage_cpu_lag_1 = c`, frozen at the
seed's last known `usage_cpu` value `c`, because appended records copy
`usage_cpu` forward unchanged and stage 6 only overwrites `usage_storage`. -/
theorem claim_C7 {α : Type} [Field α] [DecidableEq α] (ops : Ops α)
    (m : Model α) (df : Frame α) (n_days : Nat) {ps : List α} {h' : Frame α}
    (last0 : Row α) {c : α} (_hn : 2 ≤ n_days)
    (hl : (tailN 7 df).getLast? = some last0)
    (hm : rmem last0 "usage_cpu_lag_1" = true)
    (hc : rget last0 "usage_cpu" = some c)
    (hs : forecastLoop ops m "usage_storage" n_days (tailN 7 df) =
      Except.ok (ps, h')) :
    ∀ a ∈ h'.drop (tailN 7 df).length,
      rget a "usage_cpu" = some c ∧ rget a "usage_cpu_lag_1" = some c :=
  storageLoop_cpu_frozen hl hc hm hs

/-! C9 and C10 -/

/-- Claim C9 (confirmed): `storage_per_user` and `storage_efficiency` are
computed by the identical formula `usage_storage_lag_1 / (users_active_lag_1
+ 1e-6)`.  In a recursive step where both features are on the template
(i.e. both are computed in the same pass), the appended record carries equal
values for them; in the single-shot completer, when both are absent from the
caller's input (so both are computed) the completed row carries equal
values, with the same get-default (0 numerator / 1 denominator) reads. -/
theorem claim_C9 {α : Type} [Field α] [DecidableEq α] (ops : Ops α)
    (m : Model α) :
    (∀ (tgt : String) (fr h' : Frame α) (last0 : Row α) (p : α),
      fr.getLast? = some last0 → rmem last0 "storage_per_user" = true →
      rmem last0 "storage_efficiency" = true → tgt ≠ "storage_per_user" →
      tgt ≠ "storage_efficiency" →
      forecastStep ops m tgt fr = Except.ok (p, h') →
      ∃ a, h' = fr ++ [a] ∧
        rget a "storage_per_user" = rget a "storage_efficiency" ∧
        (rget a "storage_per_user").isSome = true) ∧
    (∀ (input : Row α) (df : Frame α) (out : Row α),
      rmem input "storage_per_user" = false →
      rmem input "storage_efficiency" = false →
      prepare_single_prediction_features ops input df = Except.ok out →
      rget out "storage_per_user" = rget out "storage_efficiency" ∧
      (rget out "storage_per_user").isSome = true) := by
  constructor
  · intro tgt fr h' last0 p hl hspu hseff hne1 hne2 hs
    obtain ⟨t, hrec, hp, hh⟩ := forecastStep_ok_cases hs
    obtain ⟨l0, t1, t2, t3, hl', hcad, hlg, hro, hde⟩ := reconstruct_ok_cases hrec
    rw [hl] at hl'
    cases Option.some.inj hl'
    have hm3spu : rmem t3 "storage_per_user" = true := by
      rw [rollStage_ok_rmem hro, lagStage_ok_rmem hlg,
        calendarAdvance_ok_rmem hcad]
      exact hspu
    have hm3seff : rmem t3 "storage_efficiency" = true := by
      rw [rollStage_ok_rmem hro, lagStage_ok_rmem hlg,
        calendarAdvance_ok_rmem hcad]
      exact hseff
    obtain ⟨a, b, hva, hvb⟩ := derivedStage_ok_spu_seff hm3spu hm3seff hde
    refine ⟨rset t tgt p, hh, ?_, ?_⟩
    · rw [rget_rset_ne t p (Ne.symm hne1), rget_rset_ne t p (Ne.symm hne2),
        hva, hvb]
    · rw [rget_rset_ne t p (Ne.symm hne1), hva]
      rfl
  · intro input df out hspu hseff hs
    rcases prepare_ok_cases hs with ⟨hg, rfl⟩ | ⟨hg, f, hf, rfl⟩
    · rw [derivedFill_spu hspu, derivedFill_seff hseff]
      exact ⟨rfl, rfl⟩
    · have hfspu : rmem f "storage_per_user" = false := by
        unfold rmem
        rw [historyFill_ok_rget hf (by decide) (by decide)]
        exact hspu
      have hfseff : rmem f "storage_efficiency" = false := by
        unfold rmem
        rw [historyFill_ok_rget hf (by decide) (by decide)]
        exact hseff
      rw [derivedFill_spu hfspu, derivedFill_seff hfseff]
      exact ⟨rfl, rfl⟩

/-- Claim C9, witness: a concrete one-record buffer carrying both features,
and a concrete single-shot input lacking both. -/
theorem claim_C9_witness :
    (∃ p a, forecastStep opsQ mId "usage_cpu" fr9 = Except.ok (p, fr9 ++ [a]) ∧
      rget a "storage_per_user" = rget a "storage_efficiency") ∧
    (∃ out, prepare_single_prediction_features opsQ input10 pdf =
        Except.ok out ∧
      rget out "storage_per_user" = rget out "storage_efficiency") := by
  constructor
  · obtain ⟨p, a, hstep, _⟩ := forecastStep_ok_wf opsQ mId "usage_cpu" fr9
      (by decide) (by decide) (Or.inl rfl)
    obtain ⟨a', hh, heq, _⟩ := (claim_C9 opsQ mId).1 "usage_cpu" fr9
      (fr9 ++ [a]) w9Row p (by decide) (by decide) (by decide) (by decide)
      (by decide) hstep
    have ha : a' = a := by
      have := List.append_cancel_left hh
      exact (List.cons.inj this).1.symm
    rw [ha] at heq
    exact ⟨p, a, hstep, heq⟩
  · have hok : prepare_single_prediction_features opsQ input10 pdf =
        Except.ok (derivedFill input10) := rfl
    obtain ⟨heq, _⟩ := (claim_C9 opsQ mId).2 input10 pdf (derivedFill input10)
      (by decide) (by decide) hok
    exact ⟨derivedFill input10, hok, heq⟩

/-- Claim C10 (confirmed): in the single-shot completer the recomputation of
all lag and rolling features is gated solely on the absence of
`usage_cpu_lag_1` from the input.  When the input contains
`usage_cpu_lag_1`, no lag or rolling feature is filled from history (each
such cell in the output is exactly the input's cell, present or absent), and
each of the seven derived features that is absent falls back to the
`features.get(·, 0)` / `features.get(·, 1)` defaults for its missing
dependencies (default 0 for numerators and addends, 1 for denominators,
evaluated on the input row itself). -/
theorem claim_C10 {α : Type} [Field α] [DecidableEq α] (ops : Ops α)
    (input df out : _) (hg : rmem (α := α) input "usage_cpu_lag_1" = true)
    (hs : prepare_single_prediction_features ops input df = Except.ok out) :
    (∀ k ∈ lagKeys, rget out k = rget input k) ∧
    (∀ k ∈ rollKeys, rget out k = rget input k) ∧
    (rmem input "cpu_per_user" = false →
      rget out "cpu_per_user" = some (gget input "usage_cpu_lag_1" 0 /
        (gget input "users_active_lag_1" 1 + epsilon))) ∧
    (rmem input "storage_per_user" = false →
      rget out "storage_per_user" = some (gget input "usage_storage_lag_1" 0 /
        (gget input "users_active_lag_1" 1 + epsilon))) ∧
    (rmem input "cpu_storage_ratio" = false →
      rget out "cpu_storage_ratio" = some (gget input "usage_cpu_lag_1" 0 /
        (gget input "usage_storage_lag_1" 1 + epsilon))) ∧
    (rmem input "econ_demand_ratio" = false →
      rget out "econ_demand_ratio" = some (gget input "economic_index" 0 /
        (gget input "cloud_market_demand" 1 + epsilon))) ∧
    (rmem input "system_stress" = false →
      rget out "system_stress" = some (gget input "usage_cpu_lag_1" 0 +
        gget input "usage_storage_lag_1" 0 +
        gget input "users_active_lag_1" 0)) ∧
    (rmem input "cpu_utilization_ratio" = false →
      rget out "cpu_utilization_ratio" =
        some (gget input "usage_cpu_lag_1" 0 / 100)) ∧
    (rmem input "storage_efficiency" = false →
      rget out "storage_efficiency" = some (gget input "usage_storage_lag_1" 0 /
        (gget input "users_active_lag_1" 1 + epsilon))) := by
  rcases prepare_ok_cases hs with ⟨_, rfl⟩ | ⟨hg', _⟩
  · refine ⟨?_, ?_, derivedFill_cpu, derivedFill_spu, derivedFill_csr,
      derivedFill_edr, derivedFill_stress, derivedFill_cur, derivedFill_seff⟩
    · intro k hk
      exact derivedFill_rget_not_derived (by revert k; decide)
    · intro k hk
      exact derivedFill_rget_not_derived (by revert k; decide)
  · rw [hg] at hg'
    cases hg'

/-- Claim C10, witness: with `usage_cpu_lag_1` and a lag-3 value supplied,
the lag-3 cell is untouched (still the caller's 9), the absent lag-7 cell is
not filled from the 7-row history, and the absent `system_stress`,
`cpu_utilization_ratio` and `storage_efficiency` fall back to the 0/1
defaults. -/
theorem claim_C10_witness :
    ∃ out, prepare_single_prediction_features opsQ input10 pdf =
        Except.ok out ∧
      rget out "usage_cpu_lag_3" = some 9 ∧
      rget out "usage_cpu_lag_7" = none ∧
      rget out "system_stress" = some (gget input10 "usage_cpu_lag_1" 0 +
        gget input10 "usage_storage_lag_1" 0 +
        gget input10 "users_active_lag_1" 0) ∧
      rget out "cpu_utilization_ratio" =
        some (gget input10 "usage_cpu_lag_1" 0 / 100) ∧
      rget out "storage_efficiency" = some (gget input10 "usage_storage_lag_1" 0 /
        (gget input10 "users_active_lag_1" 1 + epsilon)) := by
  have hok : prepare_single_prediction_features opsQ input10 pdf =
      Except.ok (derivedFill input10) := rfl
  obtain ⟨hlag, hroll, _, _, _, _, hstress, hcur, hseff⟩ := claim_C10 opsQ
    input10 pdf (derivedFill input10) (by decide) hok
  refine ⟨derivedFill input10, hok, ?_, ?_, hstress (by decide),
    hcur (by decide), hseff (by decide)⟩
  · rw [hlag "usage_cpu_lag_3" (by decide)]
    decide
  · rw [hlag "usage_cpu_lag_7" (by decide)]
    decide

/-- Claim C3, amended: at every iteration of either recursive loop, the
rolling-mean-3/7 features written for each of the three raw metrics equal
the mean of the last 3 (resp. 7) records of the current buffer, and the
rolling-std-3/7 features equal the *sample* standard deviation (pandas's
default `ddof = 1`, i.e. `sqrt(Σ(x - x̄)² / (n - 1))` = `pandasStd`) of
those records — not the population standard deviation. -/
theorem claim_C3_amended {α : Type} [Field α] [DecidableEq α] (ops : Ops α)
    (m : Model α) (tgt : String) (fr h' : Frame α) (last0 : Row α) (p : α)
    (htgt : tgt = "usage_cpu" ∨ tgt = "usage_storage")
    (hl : fr.getLast? = some last0)
    (hs : forecastStep ops m tgt fr = Except.ok (p, h')) :
    ∃ a, h' = fr ++ [a] ∧ ∀ col ∈ rawCols, ∃ cs,
      colVals fr col = Except.ok cs ∧
      (rmem last0 (col ++ "_rolling_mean_3") = true →
        rget a (col ++ "_rolling_mean_3") = some (listMean (tailN 3 cs))) ∧
      (rmem last0 (col ++ "_rolling_std_3") = true →
        rget a (col ++ "_rolling_std_3") = some (pandasStd ops (tailN 3 cs))) ∧
      (rmem last0 (col ++ "_rolling_mean_7") = true →
        rget a (col ++ "_rolling_mean_7") = some (listMean (tailN 7 cs))) ∧
      (rmem last0 (col ++ "_rolling_std_7") = true →
        rget a (col ++ "_rolling_std_7") = some (pandasStd ops (tailN 7 cs))) := by
  obtain ⟨t, hrec, hp, hh⟩ := forecastStep_ok_cases hs
  obtain ⟨l0, t1, t2, t3, hl', hcad, hlg, hro, hde⟩ := reconstruct_ok_cases hrec
  rw [hl] at hl'
  cases Option.some.inj hl'
  have hmem2 : ∀ k, rmem t2 k = rmem last0 k := by
    intro k
    rw [lagStage_ok_rmem hlg, calendarAdvance_ok_rmem hcad]
  have hnotd : ∀ k ∈ rollKeys, k ∉ derivedKeys := by decide
  have hnetgt : ∀ k ∈ rollKeys, k ≠ "usage_cpu" ∧ k ≠ "usage_storage" := by decide
  have transfer : ∀ k ∈ rollKeys, rget (rset t tgt p) k = rget t3 k := by
    intro k hk
    have hne : k ≠ tgt := by
      rcases htgt with rfl | rfl
      · exact (hnetgt k hk).1
      · exact (hnetgt k hk).2
    rw [rget_rset_ne t p hne, derivedStage_ok_rget hde (hnotd k hk)]
  have hin1 : ∀ c ∈ rawCols, c ++ "_rolling_mean_3" ∈ rollKeys := by decide
  have hin2 : ∀ c ∈ rawCols, c ++ "_rolling_std_3" ∈ rollKeys := by decide
  have hin3 : ∀ c ∈ rawCols, c ++ "_rolling_mean_7" ∈ rollKeys := by decide
  have hin4 : ∀ c ∈ rawCols, c ++ "_rolling_std_7" ∈ rollKeys := by decide
  refine ⟨rset t tgt p, hh, ?_⟩
  intro col hcol
  obtain ⟨cs, hcs, v1, v2, v3, v4⟩ := rollStage_ok_vals hro col hcol
  refine ⟨cs, hcs, ?_, ?_, ?_, ?_⟩
  · intro hm
    rw [transfer _ (hin1 col hcol)]
    exact v1 (by rw [hmem2]; exact hm)
  · intro hm
    rw [transfer _ (hin2 col hcol)]
    exact v2 (by rw [hmem2]; exact hm)
  · intro hm
    rw [transfer _ (hin3 col hcol)]
    exact v3 (by rw [hmem2]; exact hm)
  · intro hm
    rw [transfer _ (hin4 col hcol)]
    exact v4 (by rw [hmem2]; exact hm)

/-- Claim C3, counterexample (the claim as stated is false on the code): on
a real-valued buffer whose last three `usage_cpu` values are 0, 0, 2, the
day-0 step writes `usage_cpu_rolling_std_3 = √(4/3)` — pandas's `ddof = 1`
sample standard deviation — while the population standard deviation of the
same three records is `√(8/9) ≠ √(4/3)`. -/
theorem claim_C3_counterexample :
    ∃ p h2 a, forecastStep opsR mStd "usage_cpu" rdf = Except.ok (p, h2) ∧
      h2 = rdf ++ [a] ∧
      colVals rdf "usage_cpu" = Except.ok cpuColR ∧
      rget a "usage_cpu_rolling_std_3" =
        some (pandasStd opsR (tailN 3 cpuColR)) ∧
      pandasStd opsR (tailN 3 cpuColR) ≠
        populationStd opsR (tailN 3 cpuColR) := by
  obtain ⟨p, a, hstep, _⟩ := forecastStep_ok_wf opsR mStd "usage_cpu" rdf
    (by decide) (by decide) (Or.inl rfl)
  obtain ⟨a', hh, hc⟩ := claim_C3_amended opsR mStd "usage_cpu" rdf
    (rdf ++ [a]) (rRow 2) p (Or.inl rfl) rfl hstep
  have ha : a' = a := by
    have hcancel := List.append_cancel_left hh
    exact ((List.cons.inj hcancel).1).symm
  obtain ⟨cs, hcs, _, v2, _, _⟩ := hc "usage_cpu" (by decide)
  have hcol : colVals rdf "usage_cpu" = Except.ok cpuColR := rfl
  have hcseq : cs = cpuColR := by
    rw [hcol] at hcs
    exact (Except.ok.inj hcs).symm
  have hcell : rget a "usage_cpu_rolling_std_3" =
      some (pandasStd opsR (tailN 3 cpuColR)) := by
    rw [← ha, ← hcseq]
    exact v2 (by decide)
  refine ⟨p, rdf ++ [a], a, hstep, rfl, hcol, hcell, ?_⟩
  have ht3 : tailN 3 cpuColR = [0, 0, 2] := rfl
  rw [ht3]
  show Real.sqrt (sampleVar [0, 0, 2]) ≠ Real.sqrt (popVar [0, 0, 2])
  have hs1 : sampleVar ([0, 0, 2] : List ℝ) = 4 / 3 := by
    norm_num [sampleVar, listMean]
  have hs2 : popVar ([0, 0, 2] : List ℝ) = 8 / 9 := by
    norm_num [popVar, listMean]
  rw [hs1, hs2]
  intro hcon
  have := (Real.sqrt_inj (by norm_num) (by norm_num)).mp hcon
  norm_num at this

/-- Claim C3, witness for the amended theorem: a concrete rational run where
the rolling-mean-3 cell of the appended record equals the mean of the last
three buffer values of `usage_cpu`. -/
theorem claim_C3_amended_witness :
    ∃ p h2 a cs, forecastStep opsQ mId "usage_cpu" wdf3 = Except.ok (p, h2) ∧
      h2 = wdf3 ++ [a] ∧ colVals wdf3 "usage_cpu" = Except.ok cs ∧
      rget a "usage_cpu_rolling_mean_3" = some (listMean (tailN 3 cs)) := by
  obtain ⟨p, a, hstep, _⟩ := forecastStep_ok_wf opsQ mId "usage_cpu" wdf3
    (by decide) (by decide) (Or.inl rfl)
  obtain ⟨a', hh, hc⟩ := claim_C3_amended opsQ mId "usage_cpu" wdf3
    (wdf3 ++ [a]) (w3Row 7) p (Or.inl rfl) (by decide) hstep
  have ha : a' = a := by
    have hcancel := List.append_cancel_left hh
    exact ((List.cons.inj hcancel).1).symm
  obtain ⟨cs, hcs, v1, _, _, _⟩ := hc "usage_cpu" (by decide)
  refine ⟨p, wdf3 ++ [a], a, cs, hstep, rfl, hcs, ?_⟩
  rw [← ha]
  exact v1 (by decide)

/-- Claim C7, witness: a concrete 2-day storage run on the 7-row dataset
whose last seed `usage_cpu` is 7. -/
theorem claim_C7_witness :
    ∃ ps h', forecastLoop opsQ mId "usage_storage" 2 (tailN 7 pdf) =
        Except.ok (ps, h') ∧
      ∀ a ∈ h'.drop (tailN 7 pdf).length,
        rget a "usage_cpu" = some 7 ∧ rget a "usage_cpu_lag_1" = some 7 := by
  obtain ⟨ps, h', hloop⟩ := forecastLoop_ok_wf opsQ mId
    (Or.inr rfl) (n := 2) (h := tailN 7 pdf) (by decide) (by decide)
  exact ⟨ps, h', hloop,
    claim_C7 opsQ mId pdf 2 (pRow 7) (c := (7 : ℚ)) (by omega)
      (by decide) (by decide) (by decide) hloop⟩

/-! Concrete evaluation of the spec's §8 scenario (claim C4). -/

theorem c4_roll0 : rollStage opsQ qdf c4rowL = Except.ok c4rowR := by
  simp [rollStage, rollColUpd, rsetIf, rmem, rget, rset, c4rowL, c4rowR, qdf,
    qRow, colVals, tailN, listMean, pandasStd, sampleVar, opsQ, ok_bind,
    err_bind, pure_eq_ok, Except.map]
  norm_num

theorem c4_rec0 : reconstruct opsQ qdf = Except.ok c4rowR := by
  have hcal : calendarAdvance opsQ (qRow 16) = Except.ok (qRow 16) := by decide
  have hlag : lagStage qdf (qRow 16) = Except.ok c4rowL := by decide
  have hder : derivedStage c4rowR = Except.ok c4rowR := by decide
  unfold reconstruct
  rw [show qdf.getLast? = some (qRow 16) from rfl]
  show (do
    let t ← calendarAdvance opsQ (qRow 16)
    let t ← lagStage qdf t
    let t ← rollStage opsQ qdf t
    derivedStage t) = Except.ok c4rowR
  rw [hcal, ok_bind, hlag, ok_bind, c4_roll0, ok_bind, hder]

theorem c4_step0 :
    forecastStep opsQ mStub "usage_cpu" qdf = Except.ok (17, qdf ++ [c4row0]) := by
  have hpred : mStub.predict (reindex c4rowR mStub.feature_names_in_) = 17 := by
    show (16 : ℚ) + 1 = 17
    norm_num
  have hset : rset c4rowR "usage_cpu" 17 = c4row0 := by decide
  rw [forecastStep_ok_of mStub "usage_cpu" c4_rec0, hpred, hset]

theorem c4_roll1 :
    rollStage opsQ (qdf ++ [c4row0]) c4rowL2 = Except.ok c4rowR2 := by
  simp [rollStage, rollColUpd, rsetIf, rmem, rget, rset, c4rowL2, c4rowR2,
    qdf, qRow, c4row0, colVals, tailN, listMean, pandasStd, sampleVar, opsQ,
    ok_bind, err_bind, pure_eq_ok, Except.map]
  norm_num

theorem c4_rec1 : reconstruct opsQ (qdf ++ [c4row0]) = Except.ok c4rowR2 := by
  have hcal : calendarAdvance opsQ c4row0 = Except.ok c4row0 := by decide
  have hlag : lagStage (qdf ++ [c4row0]) c4row0 = Except.ok c4rowL2 := by decide
  have hder : derivedStage c4rowR2 = Except.ok c4rowR2 := by decide
  unfold reconstruct
  rw [show (qdf ++ [c4row0]).getLast? = some c4row0 from by decide]
  show (do
    let t ← calendarAdvance opsQ c4row0
    let t ← lagStage (qdf ++ [c4row0]) t
    let t ← rollStage opsQ (qdf ++ [c4row0]) t
    derivedStage t) = Except.ok c4rowR2
  rw [hcal, ok_bind, hlag, ok_bind, c4_roll1, ok_bind, hder]

theorem c4_step1 :
    forecastStep opsQ mStub "usage_cpu" (qdf ++ [c4row0]) =
      Except.ok (18, (qdf ++ [c4row0]) ++ [c4row1]) := by
  have hpred : mStub.predict (reindex c4rowR2 mStub.feature_names_in_) = 18 := by
    show (17 : ℚ) + 1 = 18
    norm_num
  have hset : rset c4rowR2 "usage_cpu" 18 = c4row1 := by decide
  rw [forecastStep_ok_of mStub "usage_cpu" c4_rec1, hpred, hset]

theorem c4_loop :
    recursive_forecast_cpu opsQ qdf mStub 2 = Except.ok [17, 18] := by
  have hloop : forecastLoop opsQ mStub "usage_cpu" 2 qdf =
      Except.ok ([17, 18], (qdf ++ [c4row0]) ++ [c4row1]) := by
    apply (forecastLoop_succ_ok_iff (n := 1)).mpr
    refine ⟨17, qdf ++ [c4row0], [18], c4_step0, ?_, rfl⟩
    apply (forecastLoop_succ_ok_iff (n := 0)).mpr
    exact ⟨18, (qdf ++ [c4row0]) ++ [c4row1], [], c4_step1, forecastLoop_zero, rfl⟩
  unfold recursive_forecast_cpu
  rw [show tailN 7 qdf = qdf from rfl, hloop]
  rfl

/-- Claim C4, counterexample (the claim as stated is false on the code): on
the spec's seed `usage_cpu` = [10,12,11,13,14,15,16], the day-0 record's
`usage_cpu_lag_3` is 14 (`history["usage_cpu"].iloc[-3]`, the value 3
positions from the end of the seed), not the claimed 13. -/
theorem claim_C4_counterexample :
    forecastStep opsQ mStub "usage_cpu" (tailN 7 qdf) =
      Except.ok (17, qdf ++ [c4row0]) ∧
    rget c4row0 "usage_cpu_lag_3" = some 14 ∧
    some (14 : ℚ) ≠ some (13 : ℚ) := by
  refine ⟨?_, by decide, ?_⟩
  · rw [show tailN 7 qdf = qdf from rfl]
    exact c4_step0
  · intro h
    have := Option.some.inj h
    norm_num at this

/-- Claim C4, amended: on the spec's seed, day 0 of a CPU forecast computes
`usage_cpu_lag_1 = 16`, `usage_cpu_lag_3 = 14` (not 13 — `iloc[-3]` is the
value 3 positions from the end), `usage_cpu_lag_7 = 10`,
`usage_cpu_rolling_mean_3 = 15`, `usage_cpu_rolling_mean_7 = 13`; with the
stub predictor returning `lag_1 + 1` the predictions are [17, 18], and
day 1's `usage_cpu_lag_1` is 17. -/
theorem claim_C4_amended :
    recursive_forecast_cpu opsQ qdf mStub 2 = Except.ok [17, 18] ∧
    forecastStep opsQ mStub "usage_cpu" (tailN 7 qdf) =
      Except.ok (17, qdf ++ [c4row0]) ∧
    forecastStep opsQ mStub "usage_cpu" (qdf ++ [c4row0]) =
      Except.ok (18, (qdf ++ [c4row0]) ++ [c4row1]) ∧
    rget c4row0 "usage_cpu_lag_1" = some 16 ∧
    rget c4row0 "usage_cpu_lag_3" = some 14 ∧
    rget c4row0 "usage_cpu_lag_7" = some 10 ∧
    rget c4row0 "usage_cpu_rolling_mean_3" = some 15 ∧
    rget c4row0 "usage_cpu_rolling_mean_7" = some 13 ∧
    rget c4row1 "usage_cpu_lag_1" = some 17 := by
  refine ⟨c4_loop, ?_, c4_step1, by decide, by decide, by decide, by decide,
    by decide, by decide⟩
  rw [show tailN 7 qdf = qdf from rfl]
  exact c4_step0

/-- Claim C8, counterexample (the claim as stated is false on the code): the
caller supplies `usage_cpu_rolling_mean_3 = 5` but omits `usage_cpu_lag_1`;
the history block then runs and *overwrites* the caller's value with the
recomputed rolling mean 1 of the historical data. -/
theorem claim_C8_counterexample :
    rget c8input "usage_cpu_rolling_mean_3" = some 5 ∧
    ∃ out, prepare_single_prediction_features opsQ c8input c8df =
        Except.ok out ∧
      rget out "usage_cpu_rolling_mean_3" = some 1 ∧
      some (1 : ℚ) ≠ some (5 : ℚ) := by
  refine ⟨by decide, ?_⟩
  have hlag : historyLagFill (tailN 7 c8df) c8input = Except.ok c8f1 := by decide
  obtain ⟨f2, h2⟩ := rollFill_ok_of opsQ (tailN 7 c8df)
    "usage_cpu" (f := c8f1) (by decide)
  obtain ⟨f3, h3⟩ := rollFill_ok_of opsQ (tailN 7 c8df)
    "usage_storage" (f := f2) (by decide)
  obtain ⟨f4, h4⟩ := rollFill_ok_of opsQ (tailN 7 c8df)
    "users_active" (f := f3) (by decide)
  have hhf : historyFill opsQ c8df c8input = Except.ok f4 := by
    simp only [historyFill]
    rw [hlag, ok_bind, h2, ok_bind, h3, ok_bind, h4]
  have hprep : prepare_single_prediction_features opsQ c8input c8df =
      Except.ok (derivedFill f4) := by
    unfold prepare_single_prediction_features
    rw [if_neg (by decide), hhf]
    rfl
  obtain ⟨cs, hcs, hm3⟩ := rollFill_ok_m3 h2
  have hcseq : cs = [1, 1, 1, 1, 1, 1, 1] := by
    have hcol : colVals (tailN 7 c8df) "usage_cpu" =
        Except.ok [1, 1, 1, 1, 1, 1, 1] := by decide
    rw [hcol] at hcs
    exact (Except.ok.inj hcs).symm
  have hm3v : rget f2 "usage_cpu_rolling_mean_3" = some 1 := by
    have hm3' : rget f2 "usage_cpu_rolling_mean_3" =
        some (listMean (tailN 3 cs)) := hm3
    rw [hm3', hcseq]
    norm_num [listMean, tailN]
  have hout : rget (derivedFill f4) "usage_cpu_rolling_mean_3" = some 1 := by
    rw [derivedFill_rget_not_derived (by decide),
      rollFill_ok_rget h4 (by decide) (by decide) (by decide) (by decide),
      rollFill_ok_rget h3 (by decide) (by decide) (by decide) (by decide)]
    exact hm3v
  refine ⟨derivedFill f4, hprep, hout, ?_⟩
  intro h
  have := Option.some.inj h
  norm_num at this

/-- Claim C8, amended: a caller-supplied feature is preserved unless it is
one of the lag/rolling features recomputed by the history block *and*
`usage_cpu_lag_1` was absent from the input.  Concretely: every input key
outside the lag and rolling key sets keeps its caller-supplied value, and
when the input contains `usage_cpu_lag_1` (so the history block is skipped)
*every* input key keeps its caller-supplied value; the derived block never
overwrites (it only fills absent keys). -/
theorem claim_C8_amended {α : Type} [Field α] [DecidableEq α] (ops : Ops α)
    (input : Row α) (df : Frame α) (out : Row α) (k : String) (v : α)
    (hs : prepare_single_prediction_features ops input df = Except.ok out)
    (hv : rget input k = some v) :
    (k ∉ lagKeys → k ∉ rollKeys → rget out k = some v) ∧
    (rmem input "usage_cpu_lag_1" = true → rget out k = some v) := by
  rcases prepare_ok_cases hs with ⟨hg, rfl⟩ | ⟨hg, f, hf, rfl⟩
  · exact ⟨fun _ _ => derivedFill_rget_some hv,
      fun _ => derivedFill_rget_some hv⟩
  · constructor
    · intro h1 h2
      apply derivedFill_rget_some
      rw [historyFill_ok_rget hf h1 h2]
      exact hv
    · intro hgt
      rw [hg] at hgt
      cases hgt

/-- Claim C8, witness for the amended theorem: with `usage_cpu_lag_1`
supplied, the caller's `usage_cpu_lag_3 = 9` survives to the output. -/
theorem claim_C8_amended_witness :
    ∃ out, prepare_single_prediction_features opsQ input10 pdf =
        Except.ok out ∧ rget out "usage_cpu_lag_3" = some 9 := by
  have hok : prepare_single_prediction_features opsQ input10 pdf =
      Except.ok (derivedFill input10) := rfl
  exact ⟨derivedFill input10, hok,
    (claim_C8_amended opsQ input10 pdf (derivedFill input10) "usage_cpu_lag_3"
      9 hok (by decide)).2 (by decide)⟩

end AzureForecast
